import Mathlib

/-!
Verification of the battery_controller core (battery model, DP optimizer,
oscillation filter, zero-grid real-time controller, mode arbitration).

Shallow embedding conventions:
* Python floats are embedded as exact rationals (ℚ).
* `math.sqrt(round_trip_efficiency)` has no exact rational value, so the
  configuration carries the square root as an explicit field `sqrt_rte`;
  theorems that depend on the link add `sqrt_rte ^ 2 = round_trip_efficiency`
  or sign/bound facts about `sqrt_rte` as hypotheses.
* ℚ division is total (`x / 0 = 0`) while Python float division raises
  `ZeroDivisionError`; where a claim is about that exception the separate
  `..._exc` definitions return `none` exactly when the source raises.
* List indexing uses `List.getD`; where the source would raise `IndexError`
  the theorems carry the caller-side length invariants that make the default
  value unreachable.
-/

namespace BatteryCtrl

/-- Python `int(...)` on a float: truncation toward zero. -/
def pyInt (q : ℚ) : ℤ := if 0 ≤ q then ⌊q⌋ else ⌈q⌉

/-- Python `round(...)` on a float: round half to even (banker rounding). -/
def pyRound (q : ℚ) : ℤ :=
  let f := ⌊q⌋
  let r := q - f
  if r < 1/2 then f
  else if 1/2 < r then f + 1
  else if f % 2 = 0 then f else f + 1

/-- helpers.clamp: `max(min_value, min(max_value, value))`. -/
def clamp (value min_value max_value : ℚ) : ℚ :=
  max min_value (min max_value value)

/-- battery_model.BatteryConfig.  `charge_efficiency` and
`discharge_efficiency` are both `math.sqrt(round_trip_efficiency)` in
`__post_init__`; the square root is embedded as the field `sqrt_rte`. -/
structure BatteryConfig where
  capacity_kwh : ℚ
  max_charge_power_kw : ℚ
  max_discharge_power_kw : ℚ
  round_trip_efficiency : ℚ
  sqrt_rte : ℚ
  min_soc_percent : ℚ
  max_soc_percent : ℚ
  pv_dc_coupled : Bool
  pv_dc_efficiency : ℚ
  deriving DecidableEq

/-- Derived field from `__post_init__`: `sqrt(round_trip_efficiency)`. -/
def BatteryConfig.charge_efficiency (c : BatteryConfig) : ℚ := c.sqrt_rte

/-- Derived field from `__post_init__`: `sqrt(round_trip_efficiency)`. -/
def BatteryConfig.discharge_efficiency (c : BatteryConfig) : ℚ := c.sqrt_rte

/-- Derived field: `capacity_kwh * min_soc_percent / 100`. -/
def BatteryConfig.min_soc_kwh (c : BatteryConfig) : ℚ :=
  c.capacity_kwh * c.min_soc_percent / 100

/-- Derived field: `capacity_kwh * max_soc_percent / 100`. -/
def BatteryConfig.max_soc_kwh (c : BatteryConfig) : ℚ :=
  c.capacity_kwh * c.max_soc_percent / 100

/-- battery_model.calculate_efficiency.  The second SoC `if` overwrites (not
stacks with) the first, exactly as in the source. -/
def calculate_efficiency (power_kw soc_percent : ℚ) (config : BatteryConfig) : ℚ :=
  let base_eff := if 0 ≤ power_kw then config.charge_efficiency
                  else config.discharge_efficiency
  let c_rate := |power_kw| / config.capacity_kwh
  let c_rate_factor := 1 - 0.02 * max 0 (c_rate - 0.5) / 0.5
  let soc_factor : ℚ := 1
  let soc_factor := if soc_percent < 20 ∨ 80 < soc_percent then (0.98 : ℚ) else soc_factor
  let soc_factor := if soc_percent < 10 ∨ 90 < soc_percent then (0.95 : ℚ) else soc_factor
  base_eff * c_rate_factor * soc_factor

/-- Python evaluation of `calculate_efficiency` with the exception made
explicit: the `c_rate` division raises `ZeroDivisionError` when
`capacity_kwh = 0` (floats: `abs(power)/0.0` raises), modelled as `none`. -/
def calculate_efficiency_exc (power_kw soc_percent : ℚ) (config : BatteryConfig) :
    Option ℚ :=
  if config.capacity_kwh = 0 then none
  else some (calculate_efficiency power_kw soc_percent config)

/-- battery_model.calculate_new_soc: returns `(new_soc_kwh, actual_energy_kwh)`. -/
def calculate_new_soc (current_soc_kwh power_kw duration_hours : ℚ)
    (config : BatteryConfig) : ℚ × ℚ :=
  let current_soc_percent := current_soc_kwh / config.capacity_kwh * 100
  if 0 < power_kw then
    let efficiency := calculate_efficiency power_kw current_soc_percent config
    let energy_stored := power_kw * duration_hours * efficiency
    let new_soc := min (current_soc_kwh + energy_stored) config.max_soc_kwh
    (new_soc, new_soc - current_soc_kwh)
  else if power_kw < 0 then
    let efficiency := calculate_efficiency power_kw current_soc_percent config
    let energy_released := |power_kw| * duration_hours
    let energy_from_battery := energy_released / efficiency
    let new_soc := max (current_soc_kwh - energy_from_battery) config.min_soc_kwh
    (new_soc, current_soc_kwh - new_soc)
  else
    (current_soc_kwh, 0)

/-- battery_model.calculate_max_charge_power. -/
def calculate_max_charge_power (current_soc_kwh duration_hours : ℚ)
    (config : BatteryConfig) : ℚ :=
  let energy_headroom := config.max_soc_kwh - current_soc_kwh
  if energy_headroom ≤ 0 ∨ duration_hours ≤ 0 then 0
  else
    let current_soc_percent := current_soc_kwh / config.capacity_kwh * 100
    let efficiency :=
      calculate_efficiency config.max_charge_power_kw current_soc_percent config
    let power_for_headroom := energy_headroom / (duration_hours * efficiency)
    min power_for_headroom config.max_charge_power_kw

/-- battery_model.calculate_max_discharge_power. -/
def calculate_max_discharge_power (current_soc_kwh duration_hours : ℚ)
    (config : BatteryConfig) : ℚ :=
  let energy_available := current_soc_kwh - config.min_soc_kwh
  if energy_available ≤ 0 ∨ duration_hours ≤ 0 then 0
  else
    let current_soc_percent := current_soc_kwh / config.capacity_kwh * 100
    let efficiency :=
      calculate_efficiency (-config.max_discharge_power_kw) current_soc_percent config
    let power_for_available := energy_available * efficiency / duration_hours
    min power_for_available config.max_discharge_power_kw

/-- battery_model.BatteryState (the fields the claims need). -/
structure BatteryState where
  soc_kwh : ℚ
  soc_percent : ℚ
  deriving DecidableEq

/-- battery_model.BatteryState.from_soc_kwh: guards the zero-capacity
division explicitly (`if capacity_kwh > 0 else 0.0`). -/
def BatteryState.from_soc_kwh (soc_kwh capacity_kwh : ℚ) : BatteryState :=
  { soc_kwh := soc_kwh
    soc_percent := if 0 < capacity_kwh then soc_kwh / capacity_kwh * 100 else 0 }

/-! ## Zero-grid real-time controller (zero_grid_controller.py) -/

/-- zero_grid_controller.ZeroGridControllerConfig (fields the core logic reads). -/
structure ZeroGridControllerConfig where
  max_charge_w : ℚ
  max_discharge_w : ℚ
  deadband_w : ℚ
  deriving DecidableEq

/-- The `mode` argument of `calculate_battery_setpoint`; the source matches on
the strings `zero_grid`, `idle`, `follow_schedule`, anything else = manual. -/
inductive ControlMode where
  | zero_grid
  | idle
  | follow_schedule
  | manual
  deriving DecidableEq

/-- Schedule / action mode labels (`charging`, `discharging`, `idle`). -/
inductive PowerMode where
  | charging
  | discharging
  | idle
  deriving DecidableEq

/-- ZeroGridController._apply_soc_limits. -/
def apply_soc_limits (battery_config : BatteryConfig)
    (target_w current_soc_kwh : ℚ) : ℚ :=
  if current_soc_kwh ≤ battery_config.min_soc_kwh ∧ target_w < 0 then 0
  else if battery_config.max_soc_kwh ≤ current_soc_kwh ∧ 0 < target_w then 0
  else target_w

/-- ZeroGridController._calculate_zero_grid: integrator step
`target = last_target - current_grid`, clamp to rated power, then SoC limits. -/
def calculate_zero_grid (config : ZeroGridControllerConfig)
    (battery_config : BatteryConfig)
    (last_target_w current_grid_w current_soc_kwh : ℚ) : ℚ :=
  let target_battery_w := last_target_w - current_grid_w
  let target_battery_w :=
    clamp target_battery_w (-config.max_discharge_w) config.max_charge_w
  apply_soc_limits battery_config target_battery_w current_soc_kwh

/-- ZeroGridController._calculate_follow_schedule. -/
def calculate_follow_schedule (config : ZeroGridControllerConfig)
    (battery_config : BatteryConfig)
    (dp_schedule_w current_soc_kwh : ℚ) : ℚ :=
  let target_battery_w :=
    clamp dp_schedule_w (-config.max_discharge_w) config.max_charge_w
  apply_soc_limits battery_config target_battery_w current_soc_kwh

/-- ZeroGridController.calculate_battery_setpoint. -/
def calculate_battery_setpoint (config : ZeroGridControllerConfig)
    (battery_config : BatteryConfig) (last_target_w : ℚ)
    (current_grid_w current_soc_kwh dp_schedule_w : ℚ) (mode : ControlMode) : ℚ :=
  match mode with
  | .zero_grid =>
      calculate_zero_grid config battery_config last_target_w current_grid_w
        current_soc_kwh
  | .idle => 0
  | .follow_schedule =>
      calculate_follow_schedule config battery_config dp_schedule_w current_soc_kwh
  | .manual => 0

/-- ZeroGridController.apply_deadband: keep the previous target when the
change is smaller than the deadband. -/
def apply_deadband (config : ZeroGridControllerConfig)
    (last_target_w target_w : ℚ) : ℚ :=
  if |target_w - last_target_w| < config.deadband_w then last_target_w
  else target_w

/-- The dict returned by `get_control_action` (fields the claims need). -/
structure ControlAction where
  target_power_w : ℚ
  target_power_kw : ℚ
  raw_target_w : ℚ
  current_grid_w : ℚ
  mode : ControlMode
  action_mode : PowerMode
  soc_kwh : ℚ
  deriving DecidableEq

/-- ZeroGridController.get_control_action: raw setpoint, deadband, state
update (`_last_target_w := final`), action-mode label.  The only mutable
controller state `_last_target_w` is passed and returned explicitly. -/
def get_control_action (config : ZeroGridControllerConfig)
    (battery_config : BatteryConfig) (last_target_w : ℚ)
    (current_grid_w current_soc_kwh dp_schedule_w : ℚ) (mode : ControlMode) :
    ControlAction × ℚ :=
  let raw_target_w := calculate_battery_setpoint config battery_config
    last_target_w current_grid_w current_soc_kwh dp_schedule_w mode
  let final_target_w := apply_deadband config last_target_w raw_target_w
  let action_mode : PowerMode :=
    if 50 < final_target_w then .charging
    else if final_target_w < -50 then .discharging
    else .idle
  ({ target_power_w := final_target_w
     target_power_kw := final_target_w / 1000
     raw_target_w := raw_target_w
     current_grid_w := current_grid_w
     mode := mode
     action_mode := action_mode
     soc_kwh := current_soc_kwh }, final_target_w)

/-- One real-time tick input (grid reading, SoC, DP recommendation, mode). -/
structure TickInput where
  current_grid_w : ℚ
  current_soc_kwh : ℚ
  dp_schedule_w : ℚ
  mode : ControlMode
  deriving DecidableEq

/-- Folding a sequence of `get_control_action` calls over the controller
state `_last_target_w`. -/
def run_controller (config : ZeroGridControllerConfig)
    (battery_config : BatteryConfig) (last_target_w : ℚ)
    (ticks : List TickInput) : ℚ :=
  ticks.foldl (fun s t =>
    (get_control_action config battery_config s t.current_grid_w
      t.current_soc_kwh t.dp_schedule_w t.mode).2) last_target_w

/-! ## DP optimizer (optimizer.py) -/

/-- const.SOC_RESOLUTION_WH. -/
def SOC_RESOLUTION_WH : ℤ := 25

/-- optimizer.OptimizationResult. -/
structure OptimizationResult where
  power_schedule_kw : List ℚ
  mode_schedule : List PowerMode
  soc_schedule_kwh : List ℚ
  total_cost : ℚ
  baseline_cost : ℚ
  savings : ℚ
  optimal_power_kw : ℚ
  optimal_mode : PowerMode
  shadow_price_eur_kwh : ℚ
  price_forecast : List ℚ
  pv_forecast : List ℚ
  consumption_forecast : List ℚ
  deriving DecidableEq

/-- optimizer._empty_result. -/
def empty_result (current_soc_kwh : ℚ) : OptimizationResult :=
  { power_schedule_kw := []
    mode_schedule := []
    soc_schedule_kwh := [current_soc_kwh]
    total_cost := 0
    baseline_cost := 0
    savings := 0
    optimal_power_kw := 0
    optimal_mode := .idle
    shadow_price_eur_kwh := 0
    price_forecast := []
    pv_forecast := []
    consumption_forecast := [] }

/-- The charging/idle-or-discharging split of `calculate_step_cost`: returns
`(dc_pv_excess_w, grid_to_battery_w)`. -/
def step_dc_split (action_w pv_dc_production_w sqrt_rte dc_eff : ℚ) : ℚ × ℚ :=
  if 0 < action_w then
    let dc_charge_w := min action_w (pv_dc_production_w * dc_eff)
    let ac_charge_w := action_w - dc_charge_w
    let dc_pv_used_w := dc_charge_w / dc_eff
    let dc_pv_excess_w := max 0 (pv_dc_production_w - dc_pv_used_w)
    let grid_to_battery_w := if 0 < ac_charge_w then ac_charge_w / sqrt_rte else 0
    (dc_pv_excess_w, grid_to_battery_w)
  else
    let dc_pv_excess_w := pv_dc_production_w
    let grid_to_battery_w :=
      if action_w < 0 then -(|action_w| * sqrt_rte) else 0
    (dc_pv_excess_w, grid_to_battery_w)

/-- The net grid exchange (W) inside `calculate_step_cost`
(`consumption - total_ac_pv + grid_to_battery`). -/
def step_net_grid_w (action_w pv_production_w consumption_w
    pv_dc_production_w sqrt_rte dc_eff : ℚ) : ℚ :=
  let s := step_dc_split action_w pv_dc_production_w sqrt_rte dc_eff
  let dc_pv_to_ac_w := if 0 < s.1 then s.1 * 0.96 else 0
  let total_ac_pv_w := pv_production_w + dc_pv_to_ac_w
  consumption_w - total_ac_pv_w + s.2

/-- optimizer.calculate_step_cost.  The source computes
`sqrt_rte = math.sqrt(rte)` locally; the square root is passed in as
`sqrt_rte` (the optimizer always passes `battery_config.sqrt_rte`, matching
`rte = battery_config.round_trip_efficiency`).  The `soc_wh` argument is
unused in the source body as well. -/
def calculate_step_cost (time_step_hours soc_wh action_w grid_price
    feed_in_price pv_production_w consumption_w sqrt_rte
    degradation_cost_per_kwh : ℚ) (battery_config : BatteryConfig)
    (pv_dc_production_w : ℚ) : ℚ :=
  let dc_eff := if battery_config.pv_dc_coupled then battery_config.pv_dc_efficiency
                else sqrt_rte
  let net_grid_w := step_net_grid_w action_w pv_production_w consumption_w
    pv_dc_production_w sqrt_rte dc_eff
  let energy_kwh := |net_grid_w| * time_step_hours / 1000
  let grid_cost := if 0 < net_grid_w then energy_kwh * grid_price
                   else -(energy_kwh * feed_in_price)
  let throughput_kwh := |action_w| * time_step_hours / 1000
  let degradation_cost := throughput_kwh * degradation_cost_per_kwh
  grid_cost + degradation_cost

/-- The discretized SoC grid
`range(min_soc_wh, max_soc_wh + SOC_RESOLUTION_WH, SOC_RESOLUTION_WH)`.
Python `range(a, b, s)` with `s > 0` has `max(0, (b - a + s - 1) // s)`
elements (floor division). -/
def soc_states (min_soc_wh max_soc_wh : ℤ) : List ℤ :=
  let count :=
    max 0 ((max_soc_wh + SOC_RESOLUTION_WH - min_soc_wh +
      (SOC_RESOLUTION_WH - 1)).fdiv SOC_RESOLUTION_WH)
  (List.range count.toNat).map (fun k : ℕ => min_soc_wh + SOC_RESOLUTION_WH * (k : ℤ))

/-- optimizer._find_nearest_soc_idx: O(1) nearest index on the uniform grid,
clamped into `[0, len - 1]`. -/
def find_nearest_soc_idx (soc_wh : ℚ) (states : List ℤ) : ℕ :=
  if states.length ≤ 1 then 0
  else
    let step : ℤ := states.getD 1 0 - states.getD 0 0
    let idx : ℤ := pyRound ((soc_wh - (states.getD 0 0 : ℚ)) / (step : ℚ))
    (max 0 (min idx ((states.length : ℤ) - 1))).toNat

/-- The charge half of the action space:
`[float(i * 100) for i in range(int(max_charge_w / 100) + 1)]`. -/
def charge_actions (max_charge_w : ℚ) : List ℚ :=
  let charge_steps := pyInt (max_charge_w / 100)
  (List.range (charge_steps + 1).toNat).map (fun i : ℕ => (i : ℚ) * 100)

/-- The discharge half of the action space:
`[float(-i * 100) for i in range(int(max_discharge_w / 100), 0, -1)]`. -/
def discharge_actions (max_discharge_w : ℚ) : List ℚ :=
  let discharge_steps := pyInt (max_discharge_w / 100)
  (List.range discharge_steps.toNat).map
    (fun k : ℕ => -(((discharge_steps - (k : ℤ) : ℤ) : ℚ) * 100))

/-- Per-time-step forecast data as read in the backward pass:
`price[t]`, `feed_in[t] if t < len(feed_in) else price[t]`,
`pv[t]*1000 if t < len(pv) else 0`, and likewise for DC PV and consumption
(`List.getD` has exactly these out-of-range defaults). -/
structure StepData where
  grid_price : ℚ
  feed_in_price : ℚ
  pv_w : ℚ
  pv_dc_w : ℚ
  consumption_w : ℚ
  deriving DecidableEq

/-- Reads the forecasts for time step `t` (see `StepData`). -/
def step_data (price feed_in pv pv_dc consumption : List ℚ) (t : ℕ) : StepData :=
  let gp := price.getD t 0
  { grid_price := gp
    feed_in_price := feed_in.getD t gp
    pv_w := pv.getD t 0 * 1000
    pv_dc_w := pv_dc.getD t 0 * 1000
    consumption_w := consumption.getD t 0 * 1000 }

/-- Cost-to-go values; `⊤` is the float `INF` used to initialize `V` and
`best_cost` (finite + `⊤ = ⊤` and `¬(⊤ < ⊤)` match IEEE `inf` here). -/
abbrev Cost := WithTop ℚ

/-- The SoC transition/feasibility check for one action inside the backward
pass: `none` means the action is rejected (`continue`). -/
def action_new_soc (time_step_hours : ℚ) (min_soc_wh max_soc_wh : ℤ)
    (soc_wh : ℤ) (action_w : ℚ) : Option ℚ :=
  if 0 < action_w then
    let new_soc_wh := (soc_wh : ℚ) + action_w * time_step_hours
    if (max_soc_wh : ℚ) < new_soc_wh then none else some new_soc_wh
  else if action_w < 0 then
    let new_soc_wh := (soc_wh : ℚ) - |action_w| * time_step_hours
    if new_soc_wh < (min_soc_wh : ℚ) then none else some new_soc_wh
  else some (soc_wh : ℚ)

/-- `step_cost + V[t+1][nearest_bin(new_soc)]` for a feasible action. -/
def action_total (time_step_hours : ℚ) (sd : StepData)
    (sqrt_rte degradation_cost_per_kwh : ℚ) (battery_config : BatteryConfig)
    (states : List ℤ) (Vnext : List Cost) (soc_wh : ℤ) (action_w new_soc_wh : ℚ) :
    Cost :=
  let new_soc_idx := find_nearest_soc_idx new_soc_wh states
  let step_cost := calculate_step_cost time_step_hours (soc_wh : ℚ) action_w
    sd.grid_price sd.feed_in_price sd.pv_w sd.consumption_w sqrt_rte
    degradation_cost_per_kwh battery_config sd.pv_dc_w
  (step_cost : Cost) + Vnext.getD new_soc_idx ⊤

/-- The inner action loop of the backward pass for one SoC state: returns
`(best_cost, best_action)`, starting from `(INF, 0.0)` and keeping the first
strict improvement, exactly as the source loop. -/
def best_action_at (time_step_hours : ℚ) (sd : StepData)
    (sqrt_rte degradation_cost_per_kwh : ℚ) (battery_config : BatteryConfig)
    (min_soc_wh max_soc_wh : ℤ) (states : List ℤ) (Vnext : List Cost)
    (actions : List ℚ) (soc_wh : ℤ) : Cost × ℚ :=
  actions.foldl (fun best action_w =>
    match action_new_soc time_step_hours min_soc_wh max_soc_wh soc_wh action_w with
    | none => best
    | some new_soc_wh =>
        let total := action_total time_step_hours sd sqrt_rte
          degradation_cost_per_kwh battery_config states Vnext soc_wh action_w
          new_soc_wh
        if total < best.1 then (total, action_w) else best) (⊤, 0)

/-- One time layer of the backward pass: `V[t]` and `policy[t]` from `V[t+1]`. -/
def backward_step (time_step_hours : ℚ) (sqrt_rte degradation_cost_per_kwh : ℚ)
    (battery_config : BatteryConfig) (min_soc_wh max_soc_wh : ℤ)
    (states : List ℤ) (actions : List ℚ) (sd : StepData) (Vnext : List Cost) :
    List Cost × List ℚ :=
  let pairs := states.map (best_action_at time_step_hours sd sqrt_rte
    degradation_cost_per_kwh battery_config min_soc_wh max_soc_wh states Vnext
    actions)
  (pairs.map Prod.fst, pairs.map Prod.snd)

/-- The full backward induction (`for t in range(n_steps - 1, -1, -1)`),
returning `V[0]` and the whole policy table. -/
def backward_pass (time_step_hours : ℚ) (sqrt_rte degradation_cost_per_kwh : ℚ)
    (battery_config : BatteryConfig) (min_soc_wh max_soc_wh : ℤ)
    (states : List ℤ) (actions : List ℚ) (sds : List StepData)
    (terminal : List Cost) : List Cost × List (List ℚ) :=
  sds.foldr (fun sd acc =>
    let vp := backward_step time_step_hours sqrt_rte degradation_cost_per_kwh
      battery_config min_soc_wh max_soc_wh states actions sd acc.1
    (vp.1, vp.2 :: acc.2)) (terminal, [])

/-- Terminal condition `V[n_steps][s] = -(soc_wh - min_soc_wh)/1000 * terminal_price`. -/
def terminal_V (states : List ℤ) (min_soc_wh : ℤ) (terminal_price : ℚ) :
    List Cost :=
  states.map (fun s => ((-(((s - min_soc_wh : ℤ) : ℚ) / 1000) * terminal_price : ℚ) : Cost))

/-- The forward pass (`for t in range(n_steps)`): walks the policy from the
snapped starting SoC, building the power/mode/SoC schedules.  The SoC
schedule starts at the unsnapped `current_soc_kwh`, as in the source. -/
def forward_pass (states : List ℤ) (min_soc_wh max_soc_wh : ℤ)
    (time_step_hours : ℚ) (current_soc_kwh start_soc_wh : ℚ)
    (policy : List (List ℚ)) : List ℚ × List PowerMode × List ℚ :=
  let step := fun (acc : List ℚ × List PowerMode × List ℚ × ℚ) (row : List ℚ) =>
    let soc_idx := find_nearest_soc_idx acc.2.2.2 states
    let action_w := row.getD soc_idx 0
    let power_kw := action_w / 1000
    let next_soc :=
      if 0 < action_w then
        min (acc.2.2.2 + action_w * time_step_hours) (max_soc_wh : ℚ)
      else if action_w < 0 then
        max (acc.2.2.2 - |action_w| * time_step_hours) (min_soc_wh : ℚ)
      else acc.2.2.2
    let mode : PowerMode :=
      if 0 < action_w then .charging else if action_w < 0 then .discharging
      else .idle
    (acc.1 ++ [power_kw], acc.2.1 ++ [mode], acc.2.2.1 ++ [next_soc / 1000],
      next_soc)
  let r := policy.foldl step ([], [], [current_soc_kwh], start_soc_wh)
  (r.1, r.2.1, r.2.2.1)

/-! ## Oscillation filter (optimizer._filter_oscillations) -/

/-- The inner helper `get_charge_cost`: feed-in opportunity cost when the
contemporaneous PV surplus exceeds 0.05 kW (50 W), otherwise the grid buy
price.  The truthiness guard `if pv_forecast and consumption_forecast and
feed_in_forecast` is the non-emptiness test on the three lists. -/
def get_charge_cost (price pv consumption feed_in : List ℚ) (timestep : ℕ) : ℚ :=
  if pv ≠ [] ∧ consumption ≠ [] ∧ feed_in ≠ [] then
    if 0.05 < pv.getD timestep 0 - consumption.getD timestep 0 then
      feed_in.getD timestep 0
    else price.getD timestep 0
  else price.getD timestep 0

/-- The unprofitability test of the charging branch at step `i` against a
discharging step `j`:
`price[j] - get_charge_cost(i)/rte < min_arbitrage_spread`. -/
def charge_unprofitable (price pv consumption feed_in : List ℚ)
    (rte min_arbitrage_spread : ℚ) (i j : ℕ) : Bool :=
  decide (price.getD j 0 -
    get_charge_cost price pv consumption feed_in i / rte < min_arbitrage_spread)

/-- The unprofitability test of the discharging branch at step `i` against a
charging step `j`:
`price[i] - get_charge_cost(j)/rte < min_arbitrage_spread`. -/
def discharge_unprofitable (price pv consumption feed_in : List ℚ)
    (rte min_arbitrage_spread : ℚ) (i j : ℕ) : Bool :=
  decide (price.getD i 0 -
    get_charge_cost price pv consumption feed_in j / rte < min_arbitrage_spread)

/-- One iteration of the `while i < len(filtered_mode) - 1` loop.  The inner
`for j ... break` loop zeroes index `i` exactly when some `j` in the window
`range(i+1, min(i+8, n))` is an opposite-direction step with insufficient
spread (the loop only breaks when it zeroes, so it scans the window for such
a witness), which is the `List.any` below. -/
def filter_step (price pv consumption feed_in : List ℚ)
    (rte min_arbitrage_spread : ℚ) (st : List ℚ × List PowerMode) (i : ℕ) :
    List ℚ × List PowerMode :=
  match st.2.getD i .idle with
  | .charging =>
      if (List.range' (i + 1) (min (i + 8) st.2.length - (i + 1))).any
          (fun j => st.2.getD j .idle == .discharging &&
            charge_unprofitable price pv consumption feed_in rte
              min_arbitrage_spread i j) then
        (st.1.set i 0, st.2.set i .idle)
      else st
  | .discharging =>
      if (List.range' (i + 1) (min (i + 8) st.2.length - (i + 1))).any
          (fun j => st.2.getD j .idle == .charging &&
            discharge_unprofitable price pv consumption feed_in rte
              min_arbitrage_spread i j) then
        (st.1.set i 0, st.2.set i .idle)
      else st
  | .idle => st

/-- The SoC-recomputation loop at the end of `_filter_oscillations`:
replays the filtered powers from `soc_schedule_kwh[0]` with min/max clamps. -/
def recompute_soc (filtered_power : List ℚ) (start_soc_kwh : ℚ)
    (time_step_hours min_soc_kwh max_soc_kwh : ℚ) : List ℚ :=
  (filtered_power.foldl (fun (acc : List ℚ × ℚ) power_kw =>
    let next :=
      if 0 < power_kw then
        min (acc.2 + power_kw * time_step_hours) max_soc_kwh
      else if power_kw < 0 then
        max (acc.2 + power_kw * time_step_hours) min_soc_kwh
      else acc.2
    (acc.1 ++ [next], next)) ([start_soc_kwh], start_soc_kwh)).1

/-- optimizer._filter_oscillations.  `sqrt_rte` embeds the local
`math.sqrt(rte)`. -/
def filter_oscillations (power_schedule_kw : List ℚ)
    (mode_schedule : List PowerMode) (soc_schedule_kwh : List ℚ)
    (price_forecast : List ℚ) (min_price_spread degradation_cost_per_kwh
    rte sqrt_rte time_step_hours min_soc_kwh max_soc_kwh : ℚ)
    (pv_forecast consumption_forecast feed_in_forecast : List ℚ) :
    List ℚ × List PowerMode × List ℚ :=
  if power_schedule_kw.length = 0 then
    (power_schedule_kw, mode_schedule, soc_schedule_kwh)
  else
    let min_arbitrage_spread :=
      (2 * degradation_cost_per_kwh + min_price_spread) / sqrt_rte
    let st := (List.range (mode_schedule.length - 1)).foldl
      (filter_step price_forecast pv_forecast consumption_forecast
        feed_in_forecast rte min_arbitrage_spread)
      (power_schedule_kw, mode_schedule)
    let filtered_soc := recompute_soc st.1 (soc_schedule_kwh.getD 0 0)
      time_step_hours min_soc_kwh max_soc_kwh
    (st.1, st.2, filtered_soc)

/-- `WithTop.untop' 0`: reads a finite cost-to-go value.  `V` entries are
finite whenever the zero action is in the action space (see `V0_ne_top`);
the float `inf` never reaches the result fields in those runs. -/
def unCost (c : Cost) : ℚ := c.untop' 0

/-- optimizer.optimize_battery_schedule.  `feed_in_forecast` and
`pv_dc_forecast` are the two optional (`None`-able) inputs. -/
def optimize_battery_schedule (battery_config : BatteryConfig)
    (current_soc_kwh : ℚ) (price_forecast : List ℚ)
    (feed_in_forecast : Option (List ℚ)) (pv_forecast consumption_forecast : List ℚ)
    (time_step_minutes : ℤ) (degradation_cost_per_kwh min_price_spread : ℚ)
    (pv_dc_forecast : Option (List ℚ)) : OptimizationResult :=
  let feed_in := feed_in_forecast.getD price_forecast
  let pv_dc := pv_dc_forecast.getD (List.replicate pv_forecast.length 0)
  let n_steps := min (min price_forecast.length pv_forecast.length)
    consumption_forecast.length
  if n_steps = 0 then empty_result current_soc_kwh
  else
    let time_step_hours := (time_step_minutes : ℚ) / 60
    let min_soc_wh := pyInt (battery_config.min_soc_kwh * 1000)
    let max_soc_wh := pyInt (battery_config.max_soc_kwh * 1000)
    let states := soc_states min_soc_wh max_soc_wh
    let n_soc_states := states.length
    let terminal_price := feed_in.getLastD 0
    let terminal := terminal_V states min_soc_wh terminal_price
    let max_charge_w := battery_config.max_charge_power_kw * 1000
    let max_discharge_w := battery_config.max_discharge_power_kw * 1000
    let actions := discharge_actions max_discharge_w ++ charge_actions max_charge_w
    let sds := (List.range n_steps).map
      (step_data price_forecast feed_in pv_forecast pv_dc consumption_forecast)
    let vp := backward_pass time_step_hours battery_config.sqrt_rte
      degradation_cost_per_kwh battery_config min_soc_wh max_soc_wh states
      actions sds terminal
    let V0 := vp.1
    let policy := vp.2
    let current_soc_wh := pyInt (current_soc_kwh * 1000)
    let current_soc_idx := find_nearest_soc_idx (current_soc_wh : ℚ) states
    let step_kwh := (SOC_RESOLUTION_WH : ℚ) / 1000
    let shadow_price_eur_kwh :=
      if 3 ≤ n_soc_states ∧ 0 < current_soc_idx ∧ current_soc_idx < n_soc_states - 1
      then
        (unCost (V0.getD (current_soc_idx - 1) ⊤) -
          unCost (V0.getD (current_soc_idx + 1) ⊤)) / (2 * step_kwh)
      else if 2 ≤ n_soc_states then
        if current_soc_idx = 0 then
          (unCost (V0.getD 0 ⊤) - unCost (V0.getD 1 ⊤)) / step_kwh
        else
          (unCost (V0.getD (n_soc_states - 2) ⊤) -
            unCost (V0.getD (n_soc_states - 1) ⊤)) / step_kwh
      else 0
    let fwd := forward_pass states min_soc_wh max_soc_wh time_step_hours
      current_soc_kwh ((states.getD current_soc_idx 0 : ℤ) : ℚ) policy
    let filtered := filter_oscillations fwd.1 fwd.2.1 fwd.2.2
      (price_forecast.take n_steps) min_price_spread degradation_cost_per_kwh
      battery_config.round_trip_efficiency battery_config.sqrt_rte
      time_step_hours battery_config.min_soc_kwh battery_config.max_soc_kwh
      (pv_forecast.take n_steps) (consumption_forecast.take n_steps)
      (if feed_in = [] then price_forecast.take n_steps else feed_in.take n_steps)
    let power_schedule_kw := filtered.1
    let mode_schedule := filtered.2.1
    let soc_schedule_kwh := filtered.2.2
    let total_cost := unCost (V0.getD current_soc_idx ⊤)
    let baseline_cost := (List.range n_steps).foldl (fun acc t =>
      let sd := step_data price_forecast feed_in pv_forecast pv_dc
        consumption_forecast t
      let dc_pv_to_ac_w := if 0 < sd.pv_dc_w then sd.pv_dc_w * 0.96 else 0
      let total_pv_w := sd.pv_w + dc_pv_to_ac_w
      let net_grid_w := sd.consumption_w - total_pv_w
      let energy_kwh := |net_grid_w| * time_step_hours / 1000
      if 0 < net_grid_w then acc + energy_kwh * sd.grid_price
      else acc - energy_kwh * sd.feed_in_price) 0
    { power_schedule_kw := power_schedule_kw
      mode_schedule := mode_schedule
      soc_schedule_kwh := soc_schedule_kwh
      total_cost := total_cost
      baseline_cost := baseline_cost
      savings := baseline_cost - total_cost
      optimal_power_kw := power_schedule_kw.getD 0 0
      optimal_mode := mode_schedule.getD 0 .idle
      shadow_price_eur_kwh := shadow_price_eur_kwh
      price_forecast := price_forecast.take n_steps
      pv_forecast := pv_forecast.take n_steps
      consumption_forecast := consumption_forecast.take n_steps }

/-! ## Mode arbitration (coordinator._async_update_data, lines 1090-1169) -/

/-- The user-selected top-level control mode. -/
inductive TopMode where
  | zero_grid
  | manual
  | hybrid
  | follow_schedule
  deriving DecidableEq

/-- The resolved effective mode the coordinator stores. -/
inductive EffectiveMode where
  | zero_grid
  | manual
  | idle
  | charging
  | discharging
  deriving DecidableEq

/-- Schedule-mode labels as effective modes (`effective_mode = result.optimal_mode`). -/
def PowerMode.toEffective : PowerMode → EffectiveMode
  | .charging => .charging
  | .discharging => .discharging
  | .idle => .idle

/-- The effective-mode/power arbitration of the coordinator:
given the user mode, the DP result fields, the current feed-in price
(`resampled_feed_in[0]` or the configured fixed price), `sqrt(RTE)` and the
live grid power, returns `(effective_mode, effective_power)`. -/
def arbitrate (control_mode : TopMode) (optimal_mode : PowerMode)
    (optimal_power_kw : ℚ) (mode_schedule : List PowerMode)
    (shadow_price_eur_kwh current_feed_in sqrt_rte current_grid : ℚ) :
    EffectiveMode × ℚ :=
  match control_mode with
  | .zero_grid => (.zero_grid, 0)
  | .manual => (.manual, 0)
  | .hybrid =>
    match optimal_mode with
    | .idle =>
        let has_upcoming_discharge :=
          mode_schedule.tail.any (· == PowerMode.discharging)
        if has_upcoming_discharge ∧ 0 ≤ current_grid then (.idle, 0)
        else (.zero_grid, 0)
    | .discharging =>
        if shadow_price_eur_kwh ≤ current_feed_in * sqrt_rte then
          (.discharging, optimal_power_kw)
        else (.zero_grid, 0)
    | .charging =>
        if current_grid < 0 then
          if current_feed_in < 0 then (.charging, optimal_power_kw)
          else (.zero_grid, 0)
        else (.charging, optimal_power_kw)
  | .follow_schedule => (optimal_mode.toEffective, optimal_power_kw)

/-! ## Concrete instances used by counterexamples and witnesses -/

/-- 1 kWh battery, RTE 0.81 (so `sqrt_rte = 0.9` exactly). -/
def cfg_unit : BatteryConfig :=
  { capacity_kwh := 1, max_charge_power_kw := 5, max_discharge_power_kw := 5
    round_trip_efficiency := 0.81, sqrt_rte := 0.9
    min_soc_percent := 10, max_soc_percent := 90
    pv_dc_coupled := false, pv_dc_efficiency := 0.97 }

/-- 10 kWh home battery, RTE 0.9025 (`sqrt_rte = 0.95` exactly),
SoC bounds 1-9 kWh. -/
def cfg_home : BatteryConfig :=
  { capacity_kwh := 10, max_charge_power_kw := 5, max_discharge_power_kw := 5
    round_trip_efficiency := 0.9025, sqrt_rte := 0.95
    min_soc_percent := 10, max_soc_percent := 90
    pv_dc_coupled := false, pv_dc_efficiency := 0.97 }

/-- Zero-capacity configuration (the zero-capacity numeric edge case). -/
def cfg_zero_cap : BatteryConfig :=
  { capacity_kwh := 0, max_charge_power_kw := 5, max_discharge_power_kw := 5
    round_trip_efficiency := 0.9025, sqrt_rte := 0.95
    min_soc_percent := 10, max_soc_percent := 90
    pv_dc_coupled := false, pv_dc_efficiency := 0.97 }

/-- 0.1 kWh battery rated 0.1 kW: SoC grid `[10, 35, 60, 85, 110]` Wh,
actions `{-100, 0, 100}` W — a minimal DP instance. -/
def cfg_tiny : BatteryConfig :=
  { capacity_kwh := 0.1, max_charge_power_kw := 0.1, max_discharge_power_kw := 0.1
    round_trip_efficiency := 0.9025, sqrt_rte := 0.95
    min_soc_percent := 10, max_soc_percent := 90
    pv_dc_coupled := false, pv_dc_efficiency := 0.97 }

/-- Like `cfg_tiny` but with SoC bounds 10-60 Wh, so the grid span (50 Wh) is
a multiple of the 25 Wh resolution: SoC grid `[10, 35, 60]`. -/
def cfg_tiny_aligned : BatteryConfig :=
  { capacity_kwh := 0.1, max_charge_power_kw := 0.1, max_discharge_power_kw := 0.1
    round_trip_efficiency := 0.9025, sqrt_rte := 0.95
    min_soc_percent := 10, max_soc_percent := 60
    pv_dc_coupled := false, pv_dc_efficiency := 0.97 }

/-- Default-ish controller configuration (deadband 50 W). -/
def zg_cfg : ZeroGridControllerConfig :=
  { max_charge_w := 5000, max_discharge_w := 5000, deadband_w := 50 }

/-- One step of the SoC replay after filtering (`current + power*dt`,
clamped to the max when charging and to the min when discharging). -/
def soc_step (time_step_hours min_soc_kwh max_soc_kwh cur power_kw : ℚ) : ℚ :=
  if 0 < power_kw then min (cur + power_kw * time_step_hours) max_soc_kwh
  else if power_kw < 0 then max (cur + power_kw * time_step_hours) min_soc_kwh
  else cur

/-- The tail of the recomputed SoC trajectory: one `soc_step` per power. -/
def soc_replay (time_step_hours min_soc_kwh max_soc_kwh : ℚ) :
    ℚ → List ℚ → List ℚ
  | _, [] => []
  | c, x :: l =>
      soc_step time_step_hours min_soc_kwh max_soc_kwh c x ::
        soc_replay time_step_hours min_soc_kwh max_soc_kwh
          (soc_step time_step_hours min_soc_kwh max_soc_kwh c x) l

/-- The claim-side condition for zeroing a charging step `i`: some step in
the window of the next 7 steps is a discharging step whose effective spread
`price[j] - charge_cost(i)/rte` falls below the threshold `ma`. -/
def spec_charge_window_bad (price pv cons fi : List ℚ) (rte ma : ℚ)
    (m₀ : List PowerMode) (i : ℕ) : Prop :=
  ∃ j, i + 1 ≤ j ∧ j < min (i + 8) m₀.length ∧
    m₀.getD j .idle = PowerMode.discharging ∧
    price.getD j 0 - get_charge_cost price pv cons fi i / rte < ma

/-- Symmetric condition for zeroing a discharging step `i`. -/
def spec_discharge_window_bad (price pv cons fi : List ℚ) (rte ma : ℚ)
    (m₀ : List PowerMode) (i : ℕ) : Prop :=
  ∃ j, i + 1 ≤ j ∧ j < min (i + 8) m₀.length ∧
    m₀.getD j .idle = PowerMode.charging ∧
    price.getD i 0 - get_charge_cost price pv cons fi j / rte < ma

/-- Monotonicity/finiteness invariant of the cost-to-go arrays on the SoC
grid: higher SoC never costs more, and every entry is finite. -/
def V_good (states : List ℤ) (V : List Cost) : Prop :=
  V.length = states.length ∧
  (∀ i j : ℕ, i ≤ j → j < states.length → V.getD j ⊤ ≤ V.getD i ⊤) ∧
  (∀ i : ℕ, i < states.length → V.getD i ⊤ ≠ ⊤)

/-! ## Theorems -/

/-- C2 (code bug): the C-rate penalty factor
`1.0 - 0.02 * max(0, c_rate - 0.5) / 0.5` is never clamped at zero, so at
`power_kw = 26` on a 1 kWh battery (C-rate 26) `calculate_efficiency`
returns `0.9 * (1 - 1.02) = -0.018 < 0`, although the configuration has
round-trip efficiency `0.81 ∈ (0,1]` (`sqrt_rte = 0.9`).  This contradicts
the claimed bound `0 < efficiency`, the spec sentence that the penalty is
"never below 0", and the function docstring (returns 0.0-1.0). -/
theorem C2_efficiency_negative_at_high_c_rate :
    cfg_unit.sqrt_rte ^ 2 = cfg_unit.round_trip_efficiency ∧
    0 < cfg_unit.round_trip_efficiency ∧ cfg_unit.round_trip_efficiency ≤ 1 ∧
    calculate_efficiency 26 50 cfg_unit = -(0.018 : ℚ) ∧
    calculate_efficiency 26 50 cfg_unit < 0 := by
  norm_num [calculate_efficiency, cfg_unit, BatteryConfig.charge_efficiency,
    BatteryConfig.discharge_efficiency]

/-- C3 counterexample: `calculate_new_soc` does not clamp an out-of-range
input SoC back into `[min_soc_kwh, max_soc_kwh]`: with zero power it returns
the input unchanged, so starting at 0 kWh (below `min_soc_kwh = 1`) the
result is outside the claimed interval. -/
theorem C3_counterexample_idle_below_min :
    (calculate_new_soc 0 0 1 cfg_home).1 = 0 ∧
    (calculate_new_soc 0 0 1 cfg_home).1 < cfg_home.min_soc_kwh := by
  norm_num [calculate_new_soc, cfg_home, BatteryConfig.min_soc_kwh]

/-- C3 (amended): for a configuration with positive capacity and
`min_soc_kwh ≤ max_soc_kwh`, a **current SoC inside the usable band**,
non-negative duration, and a positive efficiency at the evaluated operating
point (true whenever the C-rate stays below the unclamped penalty zero at
25.5C, cf. C2), `calculate_new_soc` stays inside
`[min_soc_kwh, max_soc_kwh]`; charging never decreases SoC, discharging
never increases it, and zero power returns the input SoC with zero energy. -/
theorem C3_new_soc_clamped_monotone (current_soc_kwh power_kw duration_hours : ℚ)
    (config : BatteryConfig)
    (hbounds : config.min_soc_kwh ≤ config.max_soc_kwh)
    (hdur : 0 ≤ duration_hours)
    (hlo : config.min_soc_kwh ≤ current_soc_kwh)
    (hhi : current_soc_kwh ≤ config.max_soc_kwh)
    (heff : 0 < calculate_efficiency power_kw
      (current_soc_kwh / config.capacity_kwh * 100) config) :
    config.min_soc_kwh ≤ (calculate_new_soc current_soc_kwh power_kw duration_hours config).1 ∧
    (calculate_new_soc current_soc_kwh power_kw duration_hours config).1 ≤ config.max_soc_kwh ∧
    (0 < power_kw → current_soc_kwh ≤ (calculate_new_soc current_soc_kwh power_kw duration_hours config).1) ∧
    (power_kw < 0 → (calculate_new_soc current_soc_kwh power_kw duration_hours config).1 ≤ current_soc_kwh) ∧
    (power_kw = 0 → (calculate_new_soc current_soc_kwh power_kw duration_hours config).1 = current_soc_kwh ∧
      (calculate_new_soc current_soc_kwh power_kw duration_hours config).2 = 0) := by
  unfold calculate_new_soc
  rcases lt_trichotomy power_kw 0 with hneg | hzero | hpos
  · have hnotpos : ¬ 0 < power_kw := by linarith
    have hrel : 0 ≤ |power_kw| * duration_hours /
        calculate_efficiency power_kw (current_soc_kwh / config.capacity_kwh * 100) config := by
      apply div_nonneg (mul_nonneg (abs_nonneg _) hdur) (le_of_lt heff)
    simp only [if_neg hnotpos, if_pos hneg]
    refine ⟨le_max_right _ _, ?_, ?_, ?_, ?_⟩
    · exact max_le (by linarith) hbounds
    · intro h; exact absurd h hnotpos
    · intro _; exact max_le (by linarith) hlo
    · intro h; exact absurd h (by linarith)
  · subst hzero
    simp only [if_neg (lt_irrefl (0:ℚ))]
    refine ⟨hlo, hhi, ?_, ?_, ?_⟩ <;> simp
  · have hstored : 0 ≤ power_kw * duration_hours *
        calculate_efficiency power_kw (current_soc_kwh / config.capacity_kwh * 100) config :=
      mul_nonneg (mul_nonneg (le_of_lt hpos) hdur) (le_of_lt heff)
    simp only [if_pos hpos]
    refine ⟨le_min (by linarith) hbounds, min_le_right _ _, ?_, ?_, ?_⟩
    · intro _; exact le_min (by linarith) hhi
    · intro h; exact absurd h (by linarith)
    · intro h; exact absurd h (by linarith)

/-- C3 witness: the amended theorem at a concrete input (5 kWh SoC, 1 kW
charge for 1 h on `cfg_home`). -/
theorem C3_witness :
    (cfg_home.min_soc_kwh ≤ cfg_home.max_soc_kwh ∧ (0:ℚ) ≤ 1 ∧
      cfg_home.min_soc_kwh ≤ 5 ∧ (5:ℚ) ≤ cfg_home.max_soc_kwh ∧
      0 < calculate_efficiency 1 (5 / cfg_home.capacity_kwh * 100) cfg_home) ∧
    cfg_home.min_soc_kwh ≤ (calculate_new_soc 5 1 1 cfg_home).1 := by
  have h1 : cfg_home.min_soc_kwh ≤ cfg_home.max_soc_kwh := by
    norm_num [cfg_home, BatteryConfig.min_soc_kwh, BatteryConfig.max_soc_kwh]
  have h2 : cfg_home.min_soc_kwh ≤ (5:ℚ) := by
    norm_num [cfg_home, BatteryConfig.min_soc_kwh]
  have h3 : (5:ℚ) ≤ cfg_home.max_soc_kwh := by
    norm_num [cfg_home, BatteryConfig.max_soc_kwh]
  have h4 : 0 < calculate_efficiency 1 (5 / cfg_home.capacity_kwh * 100) cfg_home := by
    norm_num [calculate_efficiency, cfg_home, BatteryConfig.charge_efficiency,
      BatteryConfig.discharge_efficiency]
  exact ⟨⟨h1, by norm_num, h2, h3, h4⟩,
    (C3_new_soc_clamped_monotone 5 1 1 cfg_home h1 (by norm_num) h2 h3 h4).1⟩

/-- C9 counterexample: with zero capacity, `calculate_efficiency` raises
`ZeroDivisionError` (the `c_rate` division) instead of absorbing the input
through an early-return default — modelled by the `none` of the
exception-aware evaluation. -/
theorem C9_zero_capacity_raises :
    calculate_efficiency_exc 1 50 cfg_zero_cap = none := by
  simp [calculate_efficiency_exc, cfg_zero_cap]

/-- C9 (amended): the zero-length-forecast and zero-duration edge cases are
absorbed by explicit early returns: an empty price forecast yields exactly
the empty/idle result (zero total, baseline and savings, mode `idle`, SoC
trajectory `[current SoC]`, zero recommended power), and zero duration makes
both rated-power helpers return 0; zero **capacity**, however, is only
guarded in `BatteryState.from_soc_kwh` — `calculate_efficiency` (and its
callers) raise `ZeroDivisionError` on it (see the counterexample). -/
theorem C9_numeric_edge_defaults :
    (∀ (battery_config : BatteryConfig) (current_soc_kwh : ℚ)
      (fi : Option (List ℚ)) (pv cons : List ℚ) (ts : ℤ) (deg sp : ℚ)
      (dc : Option (List ℚ)),
      optimize_battery_schedule battery_config current_soc_kwh [] fi pv cons
        ts deg sp dc = empty_result current_soc_kwh ∧
      (empty_result current_soc_kwh).total_cost = 0 ∧
      (empty_result current_soc_kwh).baseline_cost = 0 ∧
      (empty_result current_soc_kwh).savings = 0 ∧
      (empty_result current_soc_kwh).optimal_power_kw = 0 ∧
      (empty_result current_soc_kwh).optimal_mode = .idle ∧
      (empty_result current_soc_kwh).soc_schedule_kwh = [current_soc_kwh]) ∧
    (∀ (soc : ℚ) (config : BatteryConfig),
      calculate_max_charge_power soc 0 config = 0 ∧
      calculate_max_discharge_power soc 0 config = 0) ∧
    (∀ soc : ℚ, (BatteryState.from_soc_kwh soc 0).soc_percent = 0) := by
  refine ⟨?_, ?_, ?_⟩
  · intro battery_config current_soc_kwh fi pv cons ts deg sp dc
    refine ⟨?_, rfl, rfl, rfl, rfl, rfl, rfl⟩
    simp [optimize_battery_schedule]
  · intro soc config
    constructor
    · simp [calculate_max_charge_power]
    · simp [calculate_max_discharge_power]
  · intro soc
    simp [BatteryState.from_soc_kwh]

/-- C7 (confirmed): `apply_deadband` keeps the previous accepted target when
the new one differs by less than `deadband_w` and accepts it otherwise;
`get_control_action` always stores the accepted value as the new
`_last_target_w`; a call whose raw target meets the deadband updates the
state to that raw target (exactly once); and any sequence of calls whose raw
targets all stay within the deadband leaves `_last_target_w` unchanged. -/
theorem C7_deadband_idempotence (config : ZeroGridControllerConfig)
    (battery_config : BatteryConfig) (last target : ℚ) (ticks : List TickInput) :
    (|target - last| < config.deadband_w →
      apply_deadband config last target = last) ∧
    (config.deadband_w ≤ |target - last| →
      apply_deadband config last target = target) ∧
    (∀ g s d m, (get_control_action config battery_config last g s d m).2 =
      (get_control_action config battery_config last g s d m).1.target_power_w) ∧
    (∀ g s d m, config.deadband_w ≤
        |calculate_battery_setpoint config battery_config last g s d m - last| →
      (get_control_action config battery_config last g s d m).2 =
        calculate_battery_setpoint config battery_config last g s d m) ∧
    ((∀ t ∈ ticks, |calculate_battery_setpoint config battery_config last
        t.current_grid_w t.current_soc_kwh t.dp_schedule_w t.mode - last| <
        config.deadband_w) →
      run_controller config battery_config last ticks = last) := by
  refine ⟨?_, ?_, ?_, ?_, ?_⟩
  · intro h
    unfold apply_deadband
    exact if_pos h
  · intro h
    unfold apply_deadband
    exact if_neg (not_lt.mpr h)
  · intro g s d m
    rfl
  · intro g s d m h
    show apply_deadband config last _ = _
    unfold apply_deadband
    exact if_neg (not_lt.mpr h)
  · intro h
    induction ticks with
    | nil => rfl
    | cons t ts ih =>
        have hs : (get_control_action config battery_config last t.current_grid_w
            t.current_soc_kwh t.dp_schedule_w t.mode).2 = last := by
          show apply_deadband config last _ = last
          unfold apply_deadband
          exact if_pos (h t (List.mem_cons_self t ts))
        show List.foldl _ _ (t :: ts) = last
        rw [List.foldl_cons]
        have := ih (fun x hx => h x (List.mem_cons_of_mem t hx))
        rw [show (get_control_action config battery_config last t.current_grid_w
            t.current_soc_kwh t.dp_schedule_w t.mode).2 = last from hs] at *
        exact this

/-- C7 witness: a concrete call within the deadband (raw target 30 W,
deadband 50 W) leaves the stored target at 0. -/
theorem C7_witness :
    (∀ t ∈ [(⟨-30, 5, 0, ControlMode.zero_grid⟩ : TickInput)],
      |calculate_battery_setpoint zg_cfg cfg_home 0 t.current_grid_w
        t.current_soc_kwh t.dp_schedule_w t.mode - 0| < zg_cfg.deadband_w) ∧
    run_controller zg_cfg cfg_home 0
      [(⟨-30, 5, 0, ControlMode.zero_grid⟩ : TickInput)] = 0 := by
  have hb : ∀ t ∈ [(⟨-30, 5, 0, ControlMode.zero_grid⟩ : TickInput)],
      |calculate_battery_setpoint zg_cfg cfg_home 0 t.current_grid_w
        t.current_soc_kwh t.dp_schedule_w t.mode - 0| < zg_cfg.deadband_w := by
    intro t ht
    simp only [List.mem_singleton] at ht
    subst ht
    norm_num [calculate_battery_setpoint, calculate_zero_grid, apply_soc_limits,
      clamp, zg_cfg, cfg_home, BatteryConfig.min_soc_kwh, BatteryConfig.max_soc_kwh]
  exact ⟨hb, (C7_deadband_idempotence zg_cfg cfg_home 0 0 _).2.2.2.2 hb⟩

/-- C5 counterexample: starting from controller state 0, the two zero-grid
calls (grid −60 W at SoC 5, then grid +100 W at SoC 5) leave
`_last_target_w = -40`; the next call at `soc = min_soc_kwh = 1` with grid
+10 W (importing) zeroes the **raw** target via the SoC hard stop, but the
deadband (|0 − (−40)| = 40 < 50) retains the stale −40 W discharge command
as the final post-deadband `target_power_w`. -/
theorem C5_counterexample_stale_discharge_at_min_soc :
    run_controller zg_cfg cfg_home 0
      [(⟨-60, 5, 0, ControlMode.zero_grid⟩ : TickInput),
       (⟨100, 5, 0, ControlMode.zero_grid⟩ : TickInput)] = -40 ∧
    cfg_home.min_soc_kwh = 1 ∧
    (get_control_action zg_cfg cfg_home (-40) 10 1 0
      ControlMode.zero_grid).1.raw_target_w = 0 ∧
    (get_control_action zg_cfg cfg_home (-40) 10 1 0
      ControlMode.zero_grid).1.target_power_w = -40 ∧
    (get_control_action zg_cfg cfg_home (-40) 10 1 0
      ControlMode.zero_grid).1.target_power_w < 0 ∧ (0:ℚ) < 10 := by
  norm_num [run_controller, get_control_action, calculate_battery_setpoint,
    calculate_zero_grid, apply_soc_limits, apply_deadband, clamp, zg_cfg,
    cfg_home, BatteryConfig.min_soc_kwh, BatteryConfig.max_soc_kwh]

/-- C5 (amended): in zero-grid mode at `soc ≤ min_soc_kwh` the **raw**
pre-deadband target is never negative (for any grid reading), and the final
post-deadband target is never negative **provided the previously accepted
target is non-negative** — the deadband may retain a previously accepted
negative target that lies within `deadband_w` of the zeroed raw target (see
the counterexample); symmetrically at `soc ≥ max_soc_kwh`. -/
theorem C5_soc_hard_stop (config : ZeroGridControllerConfig)
    (battery_config : BatteryConfig) (last grid soc dp : ℚ) :
    (soc ≤ battery_config.min_soc_kwh →
      0 ≤ (get_control_action config battery_config last grid soc dp
        ControlMode.zero_grid).1.raw_target_w ∧
      (0 ≤ last → 0 ≤ (get_control_action config battery_config last grid soc dp
        ControlMode.zero_grid).1.target_power_w)) ∧
    (battery_config.max_soc_kwh ≤ soc →
      (get_control_action config battery_config last grid soc dp
        ControlMode.zero_grid).1.raw_target_w ≤ 0 ∧
      (last ≤ 0 → (get_control_action config battery_config last grid soc dp
        ControlMode.zero_grid).1.target_power_w ≤ 0)) := by
  have hraw : (get_control_action config battery_config last grid soc dp
      ControlMode.zero_grid).1.raw_target_w =
      apply_soc_limits battery_config
        (clamp (last - grid) (-config.max_discharge_w) config.max_charge_w) soc := rfl
  have hfin : (get_control_action config battery_config last grid soc dp
      ControlMode.zero_grid).1.target_power_w =
      apply_deadband config last
        (apply_soc_limits battery_config
          (clamp (last - grid) (-config.max_discharge_w) config.max_charge_w) soc) := rfl
  constructor
  · intro hmin
    have h0 : 0 ≤ apply_soc_limits battery_config
        (clamp (last - grid) (-config.max_discharge_w) config.max_charge_w) soc := by
      unfold apply_soc_limits
      split_ifs with h1 h2
      · exact le_refl 0
      · exact le_refl 0
      · push_neg at h1
        exact h1 hmin
    refine ⟨hraw ▸ h0, fun hlast => ?_⟩
    rw [hfin]
    unfold apply_deadband
    split_ifs with h
    · exact hlast
    · exact h0
  · intro hmax
    have h0 : apply_soc_limits battery_config
        (clamp (last - grid) (-config.max_discharge_w) config.max_charge_w) soc ≤ 0 := by
      unfold apply_soc_limits
      split_ifs with h1 h2
      · exact le_refl 0
      · exact le_refl 0
      · push_neg at h2
        exact le_of_not_lt (fun hpos => absurd (h2 hmax) (not_le.mpr hpos))
    refine ⟨hraw ▸ h0, fun hlast => ?_⟩
    rw [hfin]
    unfold apply_deadband
    split_ifs with h
    · exact hlast
    · exact h0

/-- C5 witness: the amended theorem at SoC = min (1 kWh) with grid +10 W and
a previously accepted non-negative target (0). -/
theorem C5_witness :
    ((1:ℚ) ≤ cfg_home.min_soc_kwh ∧ (0:ℚ) ≤ 0) ∧
    0 ≤ (get_control_action zg_cfg cfg_home 0 10 1 0
      ControlMode.zero_grid).1.target_power_w := by
  have h1 : (1:ℚ) ≤ cfg_home.min_soc_kwh := by
    norm_num [cfg_home, BatteryConfig.min_soc_kwh]
  exact ⟨⟨h1, le_refl 0⟩,
    ((C5_soc_hard_stop zg_cfg cfg_home 0 10 1 0).1 h1).2 (le_refl 0)⟩

/-- C1 counterexample: in hybrid mode with the DP first step `idle`, a later
`discharging` step and the grid **importing** (+100 W, so *not* "not
importing"), the arbitration keeps `idle` — the claim as stated demands
`zero_grid` in this case.  The code condition is `current_grid >= 0`
(not exporting), not "not importing". -/
theorem C1_counterexample_idle_while_importing :
    arbitrate .hybrid .idle 0 [.idle, .discharging] 0 (0.2) (0.95) 100 =
      (EffectiveMode.idle, 0) ∧ (0:ℚ) < 100 := by
  constructor
  · have h : (0:ℚ) ≤ 100 := by norm_num
    simp [arbitrate, h]
  · norm_num

/-- C1 (amended): in hybrid mode when the DP says `idle`, the effective
power is 0 and the effective mode is `idle` **exactly when some later step
of the DP mode schedule is `discharging` and the current grid power is
non-negative (the grid is not exporting)**; in every other case it is
`zero_grid` — i.e. the grid-side condition is "not exporting"
(`current_grid ≥ 0`), not the claimed "not importing". -/
theorem C1_hybrid_idle_characterization (power : ℚ) (sched : List PowerMode)
    (shadow fi srte grid : ℚ) :
    (arbitrate .hybrid .idle power sched shadow fi srte grid).2 = 0 ∧
    ((arbitrate .hybrid .idle power sched shadow fi srte grid).1 =
        EffectiveMode.idle ↔
      ((∃ m ∈ sched.tail, m = PowerMode.discharging) ∧ 0 ≤ grid)) ∧
    ((arbitrate .hybrid .idle power sched shadow fi srte grid).1 =
        EffectiveMode.idle ∨
      (arbitrate .hybrid .idle power sched shadow fi srte grid).1 =
        EffectiveMode.zero_grid) := by
  have hred : arbitrate .hybrid .idle power sched shadow fi srte grid =
      (if (sched.tail.any (· == PowerMode.discharging)) ∧ 0 ≤ grid then
        (EffectiveMode.idle, 0) else (EffectiveMode.zero_grid, 0)) := rfl
  rw [hred]
  split_ifs with h
  · refine ⟨rfl, ?_, Or.inl rfl⟩
    simp only [List.any_eq_true, beq_iff_eq] at h
    exact iff_of_true rfl h
  · refine ⟨rfl, ?_, Or.inr rfl⟩
    simp only [List.any_eq_true, beq_iff_eq] at h
    constructor
    · intro hc
      exact absurd hc (by simp)
    · intro hc
      exact absurd (by simpa using hc) h

/-- C1 witness: the characterization applied at a schedule with an upcoming
discharge and grid +5 W keeps `idle`. -/
theorem C1_witness :
    (arbitrate .hybrid .idle 3 [.idle, .discharging] 0 0 1 5).1 =
      EffectiveMode.idle :=
  (C1_hybrid_idle_characterization 3 [.idle, .discharging] 0 0 1 5).2.1.mpr
    ⟨⟨.discharging, by simp, rfl⟩, by norm_num⟩

/-- C10 (confirmed): for every real-valued SoC input and every non-empty
grid, `_find_nearest_soc_idx` returns an index `< length` (it is a natural
number, so `0 ≤ idx` holds by type); consequently all `V[t]`/`policy[t]`
rows built by the backward pass have exactly `states.length` entries, so
every `V[t+1][idx]` / `policy[t][idx]` access at such an index is in
bounds and the embedding is total. -/
theorem C10_find_nearest_total (soc_wh : ℚ) (states : List ℤ)
    (hne : states ≠ []) :
    find_nearest_soc_idx soc_wh states < states.length ∧
    (∀ (time_step_hours sqrt_rte deg : ℚ) (battery_config : BatteryConfig)
      (min_soc_wh max_soc_wh : ℤ) (actions : List ℚ) (sds : List StepData)
      (terminal : List Cost), terminal.length = states.length →
      (backward_pass time_step_hours sqrt_rte deg battery_config min_soc_wh
        max_soc_wh states actions sds terminal).1.length = states.length ∧
      ∀ row ∈ (backward_pass time_step_hours sqrt_rte deg battery_config
        min_soc_wh max_soc_wh states actions sds terminal).2,
        row.length = states.length) := by
  constructor
  · have hpos : 0 < states.length := List.length_pos.mpr hne
    unfold find_nearest_soc_idx
    by_cases h : states.length ≤ 1
    · rw [if_pos h]
      exact hpos
    · rw [if_neg h]
      push_neg at h
      have key : ∀ idx : ℤ,
          (max 0 (min idx ((states.length : ℤ) - 1))).toNat < states.length := by
        intro idx
        omega
      exact key _
  · intro dt srte deg bc minWh maxWh actions sds terminal hterm
    induction sds with
    | nil => exact ⟨hterm, by intro row hrow; simp [backward_pass] at hrow⟩
    | cons sd rest ih =>
        obtain ⟨ih1, ih2⟩ := ih
        have hV : (backward_pass dt srte deg bc minWh maxWh states actions
            (sd :: rest) terminal).1 =
            (backward_step dt srte deg bc minWh maxWh states actions sd
              (backward_pass dt srte deg bc minWh maxWh states actions rest
                terminal).1).1 := rfl
        have hP : (backward_pass dt srte deg bc minWh maxWh states actions
            (sd :: rest) terminal).2 =
            (backward_step dt srte deg bc minWh maxWh states actions sd
              (backward_pass dt srte deg bc minWh maxWh states actions rest
                terminal).1).2 ::
            (backward_pass dt srte deg bc minWh maxWh states actions rest
              terminal).2 := rfl
        constructor
        · rw [hV]
          simp [backward_step]
        · intro row hrow
          rw [hP] at hrow
          rcases List.mem_cons.mp hrow with h | h
          · subst h
            simp [backward_step]
          · exact ih2 row h

/-- C10 witness: the index bound at a concrete off-grid, out-of-range SoC
(1234.5 Wh) on the 5-point grid of `cfg_tiny`. -/
theorem C10_witness :
    (soc_states 10 110 ≠ []) ∧
    find_nearest_soc_idx (1234.5) (soc_states 10 110) < (soc_states 10 110).length := by
  have hne : soc_states 10 110 ≠ [] := by decide
  exact ⟨hne, (C10_find_nearest_total 1234.5 (soc_states 10 110) hne).1⟩

/-! ### Helper lemmas for C4 (action-space boundedness) -/

theorem pyInt_le_self_of_nonneg (q : ℚ) (h : 0 ≤ q) : (pyInt q : ℚ) ≤ q := by
  unfold pyInt
  rw [if_pos h]
  exact_mod_cast Int.floor_le q

theorem pyInt_pos_nonneg (q : ℚ) (h : 1 ≤ pyInt q) : 0 ≤ q := by
  by_contra hq
  push_neg at hq
  have hle : pyInt q ≤ 0 := by
    unfold pyInt
    rw [if_neg (not_le.mpr hq)]
    exact Int.ceil_le.mpr (by exact_mod_cast le_of_lt hq)
  omega

theorem charge_actions_spec {M a : ℚ} (ha : a ∈ charge_actions M) :
    0 ≤ a ∧ (0 < a → a ≤ M) := by
  unfold charge_actions at ha
  rw [List.mem_map] at ha
  obtain ⟨i, hi, rfl⟩ := ha
  rw [List.mem_range] at hi
  refine ⟨by positivity, fun hpos => ?_⟩
  have hi1 : 1 ≤ i := by
    rcases Nat.eq_zero_or_pos i with h0 | h1
    · subst h0
      norm_num at hpos
    · exact h1
  have hc1 : 1 ≤ pyInt (M / 100) := by omega
  have hile : (i : ℤ) ≤ pyInt (M / 100) := by omega
  have hq : (0:ℚ) ≤ M / 100 := pyInt_pos_nonneg _ hc1
  have hfl : (pyInt (M / 100) : ℚ) ≤ M / 100 := pyInt_le_self_of_nonneg _ hq
  have hcast : (i : ℚ) ≤ (pyInt (M / 100) : ℚ) := by exact_mod_cast hile
  nlinarith

theorem discharge_actions_spec {M a : ℚ} (ha : a ∈ discharge_actions M) :
    a < 0 ∧ -a ≤ M := by
  unfold discharge_actions at ha
  rw [List.mem_map] at ha
  obtain ⟨k, hk, rfl⟩ := ha
  rw [List.mem_range] at hk
  have hd1 : 1 ≤ pyInt (M / 100) := by omega
  have hdk : 1 ≤ pyInt (M / 100) - (k : ℤ) := by omega
  have hdk2 : pyInt (M / 100) - (k : ℤ) ≤ pyInt (M / 100) := by omega
  have hq : (0:ℚ) ≤ M / 100 := pyInt_pos_nonneg _ hd1
  have hfl : (pyInt (M / 100) : ℚ) ≤ M / 100 := pyInt_le_self_of_nonneg _ hq
  have hc1 : (1:ℚ) ≤ ((pyInt (M / 100) - (k:ℤ) : ℤ) : ℚ) := by exact_mod_cast hdk
  have hc2 : ((pyInt (M / 100) - (k:ℤ) : ℤ) : ℚ) ≤ (pyInt (M / 100) : ℚ) := by
    exact_mod_cast hdk2
  constructor
  · nlinarith
  · nlinarith

theorem best_action_at_snd_mem (time_step_hours : ℚ) (sd : StepData)
    (sqrt_rte deg : ℚ) (battery_config : BatteryConfig)
    (min_soc_wh max_soc_wh : ℤ) (states : List ℤ) (Vnext : List Cost)
    (actions : List ℚ) (soc_wh : ℤ) :
    (best_action_at time_step_hours sd sqrt_rte deg battery_config min_soc_wh
      max_soc_wh states Vnext actions soc_wh).2 = 0 ∨
    (best_action_at time_step_hours sd sqrt_rte deg battery_config min_soc_wh
      max_soc_wh states Vnext actions soc_wh).2 ∈ actions := by
  unfold best_action_at
  have key : ∀ (l : List ℚ) (S : List ℚ) (init : Cost × ℚ),
      (init.2 = 0 ∨ init.2 ∈ S) → (∀ x ∈ l, x ∈ S) →
      ((l.foldl (fun best action_w =>
        match action_new_soc time_step_hours min_soc_wh max_soc_wh soc_wh action_w with
        | none => best
        | some new_soc_wh =>
            let total := action_total time_step_hours sd sqrt_rte deg
              battery_config states Vnext soc_wh action_w new_soc_wh
            if total < best.1 then (total, action_w) else best) init).2 = 0 ∨
       (l.foldl (fun best action_w =>
        match action_new_soc time_step_hours min_soc_wh max_soc_wh soc_wh action_w with
        | none => best
        | some new_soc_wh =>
            let total := action_total time_step_hours sd sqrt_rte deg
              battery_config states Vnext soc_wh action_w new_soc_wh
            if total < best.1 then (total, action_w) else best) init).2 ∈ S) := by
    intro l
    induction l with
    | nil => intro S init h _; exact h
    | cons a l ih =>
        intro S init h hsub
        rw [List.foldl_cons]
        refine ih S _ ?_ (fun x hx => hsub x (List.mem_cons_of_mem a hx))
        cases hm : action_new_soc time_step_hours min_soc_wh max_soc_wh soc_wh a with
        | none => simpa [hm] using h
        | some ns =>
            simp only [hm]
            split
            · exact Or.inr (hsub a (List.mem_cons_self a l))
            · exact h
  exact key actions actions (⊤, 0) (Or.inl rfl) (fun x hx => hx)

theorem backward_policy_mem (time_step_hours sqrt_rte deg : ℚ)
    (battery_config : BatteryConfig) (min_soc_wh max_soc_wh : ℤ)
    (states : List ℤ) (actions : List ℚ) (sds : List StepData)
    (terminal : List Cost) :
    ∀ row ∈ (backward_pass time_step_hours sqrt_rte deg battery_config
      min_soc_wh max_soc_wh states actions sds terminal).2,
      ∀ x ∈ row, x = 0 ∨ x ∈ actions := by
  induction sds with
  | nil => intro row hrow; simp [backward_pass] at hrow
  | cons sd rest ih =>
      intro row hrow x hx
      have hP : (backward_pass time_step_hours sqrt_rte deg battery_config
          min_soc_wh max_soc_wh states actions (sd :: rest) terminal).2 =
          (backward_step time_step_hours sqrt_rte deg battery_config min_soc_wh
            max_soc_wh states actions sd
            (backward_pass time_step_hours sqrt_rte deg battery_config
              min_soc_wh max_soc_wh states actions rest terminal).1).2 ::
          (backward_pass time_step_hours sqrt_rte deg battery_config min_soc_wh
            max_soc_wh states actions rest terminal).2 := rfl
      rw [hP] at hrow
      rcases List.mem_cons.mp hrow with h | h
      · subst h
        unfold backward_step at hx
        simp only [List.map_map, List.mem_map] at hx
        obtain ⟨s, _, rfl⟩ := hx
        exact best_action_at_snd_mem time_step_hours sd sqrt_rte deg
          battery_config min_soc_wh max_soc_wh states _ actions s
      · exact ih row h x hx

theorem forward_pass_powers_mem (states : List ℤ) (min_soc_wh max_soc_wh : ℤ)
    (time_step_hours current_soc_kwh start_soc_wh : ℚ)
    (policy : List (List ℚ)) :
    ∀ p ∈ (forward_pass states min_soc_wh max_soc_wh time_step_hours
      current_soc_kwh start_soc_wh policy).1,
      p = 0 ∨ ∃ row ∈ policy, ∃ x ∈ row, p = x / 1000 := by
  unfold forward_pass
  have key : ∀ (pol : List (List ℚ)) (pol0 : List (List ℚ))
      (acc : List ℚ × List PowerMode × List ℚ × ℚ),
      (∀ r ∈ pol, r ∈ pol0) →
      (∀ p ∈ acc.1, p = 0 ∨ ∃ row ∈ pol0, ∃ x ∈ row, p = x / 1000) →
      ∀ p ∈ (pol.foldl (fun acc row =>
        let soc_idx := find_nearest_soc_idx acc.2.2.2 states
        let action_w := row.getD soc_idx 0
        let power_kw := action_w / 1000
        let next_soc :=
          if 0 < action_w then
            min (acc.2.2.2 + action_w * time_step_hours) (max_soc_wh : ℚ)
          else if action_w < 0 then
            max (acc.2.2.2 - |action_w| * time_step_hours) (min_soc_wh : ℚ)
          else acc.2.2.2
        let mode : PowerMode :=
          if 0 < action_w then .charging else if action_w < 0 then .discharging
          else .idle
        (acc.1 ++ [power_kw], acc.2.1 ++ [mode], acc.2.2.1 ++ [next_soc / 1000],
          next_soc)) acc).1,
        p = 0 ∨ ∃ row ∈ pol0, ∃ x ∈ row, p = x / 1000 := by
    intro pol
    induction pol with
    | nil => intro pol0 acc _ hacc; exact hacc
    | cons row rest ih =>
        intro pol0 acc hsub hacc
        rw [List.foldl_cons]
        refine ih pol0 _ (fun r hr => hsub r (List.mem_cons_of_mem row hr)) ?_
        intro p hp
        simp only [List.mem_append, List.mem_singleton] at hp
        rcases hp with hp | hp
        · exact hacc p hp
        · subst hp
          by_cases hlt : find_nearest_soc_idx acc.2.2.2 states < row.length
          · right
            refine ⟨row, hsub row (List.mem_cons_self row rest),
              row.getD (find_nearest_soc_idx acc.2.2.2 states) 0, ?_, rfl⟩
            rw [List.getD_eq_getElem row 0 hlt]
            exact List.getElem_mem hlt
          · left
            rw [List.getD_eq_default row 0 (le_of_not_lt hlt)]
            norm_num
  exact fun p hp => key policy policy _ (fun r hr => hr) (by simp) p hp

theorem filter_step_powers (price pv consumption feed_in : List ℚ)
    (rte ma : ℚ) (st : List ℚ × List PowerMode) (i : ℕ) :
    ∀ p ∈ (filter_step price pv consumption feed_in rte ma st i).1,
      p = 0 ∨ p ∈ st.1 := by
  intro p hp
  unfold filter_step at hp
  split at hp
  · split at hp
    · rcases List.mem_or_eq_of_mem_set hp with h | h
      · exact Or.inr h
      · exact Or.inl h
    · exact Or.inr hp
  · split at hp
    · rcases List.mem_or_eq_of_mem_set hp with h | h
      · exact Or.inr h
      · exact Or.inl h
    · exact Or.inr hp
  · exact Or.inr hp

theorem filter_powers_mem (power_schedule_kw : List ℚ)
    (mode_schedule : List PowerMode) (soc_schedule_kwh : List ℚ)
    (price_forecast : List ℚ) (sp deg rte srte dt mn mx : ℚ)
    (pv cons fi : List ℚ) :
    ∀ p ∈ (filter_oscillations power_schedule_kw mode_schedule soc_schedule_kwh
      price_forecast sp deg rte srte dt mn mx pv cons fi).1,
      p = 0 ∨ p ∈ power_schedule_kw := by
  unfold filter_oscillations
  split
  · intro p hp; exact Or.inr hp
  · have key : ∀ (l : List ℕ) (st : List ℚ × List PowerMode),
        (∀ p ∈ st.1, p = 0 ∨ p ∈ power_schedule_kw) →
        ∀ p ∈ (l.foldl (filter_step price_forecast pv cons fi rte
          ((2 * deg + sp) / srte)) st).1, p = 0 ∨ p ∈ power_schedule_kw := by
      intro l
      induction l with
      | nil => intro st h; exact h
      | cons i rest ih =>
          intro st h
          rw [List.foldl_cons]
          refine ih _ ?_
          intro p hp
          rcases filter_step_powers price_forecast pv cons fi rte _ st i p hp with
            h0 | hmem
          · exact Or.inl h0
          · exact h p hmem
    intro p hp
    exact key _ _ (fun p hp => Or.inr hp) p hp

/-- C4 (confirmed): every entry of the returned power schedule is bounded by
the rated powers — positive entries by `max_charge_power_kw`, negative
entries in magnitude by `max_discharge_power_kw` — for every configuration
and every forecast input.  The action space is generated with truncating
(floor) division of the rated watts by the 100 W resolution, so the largest
generated action never exceeds the rated limit even when the rated power is
not a multiple of 100 W (e.g. 4.6 kW), and the DP policy, forward pass and
oscillation filter only produce those actions or 0. -/
theorem C4_schedule_power_bounded (battery_config : BatteryConfig)
    (current_soc_kwh : ℚ) (price_forecast : List ℚ)
    (feed_in_forecast : Option (List ℚ)) (pv_forecast consumption_forecast : List ℚ)
    (time_step_minutes : ℤ) (deg sp : ℚ) (pv_dc_forecast : Option (List ℚ))
    (p : ℚ)
    (hp : p ∈ (optimize_battery_schedule battery_config current_soc_kwh
      price_forecast feed_in_forecast pv_forecast consumption_forecast
      time_step_minutes deg sp pv_dc_forecast).power_schedule_kw) :
    (0 < p → p ≤ battery_config.max_charge_power_kw) ∧
    (p < 0 → -p ≤ battery_config.max_discharge_power_kw) := by
  simp only [optimize_battery_schedule] at hp
  split at hp
  · simp [empty_result] at hp
  · dsimp only at hp
    rcases filter_powers_mem _ _ _ _ _ _ _ _ _ _ _ _ _ _ _ hp with h0 | hmem
    · subst h0
      exact ⟨fun h => absurd h (lt_irrefl 0), fun h => absurd h (lt_irrefl 0)⟩
    · rcases forward_pass_powers_mem _ _ _ _ _ _ _ p hmem with
        h0 | ⟨row, hrow, x, hx, rfl⟩
      · subst h0
        exact ⟨fun h => absurd h (lt_irrefl 0), fun h => absurd h (lt_irrefl 0)⟩
      · rcases backward_policy_mem _ _ _ _ _ _ _ _ _ _ row hrow x hx with h0 | hx'
        · subst h0
          constructor <;> intro h <;> norm_num at h
        · rcases List.mem_append.mp hx' with hdis | hch
          · obtain ⟨hneg, hmag⟩ := discharge_actions_spec hdis
            exact ⟨fun hq0 => by linarith, fun _ => by linarith⟩
          · obtain ⟨hnn, hbound⟩ := charge_actions_spec hch
            refine ⟨fun hq0 => ?_, fun hq0 => by linarith⟩
            have hx0 : 0 < x := by linarith
            have := hbound hx0
            linarith

set_option maxHeartbeats 3000000 in
/-- A full concrete run of the optimizer on the minimal aligned instance:
one 15-minute step, buy price 1, feed-in price −1, no PV or consumption,
SoC grid `[10, 35, 60]` Wh, actions `{−100, 0, 100}` W, starting SoC
35 Wh (interior bin 1).  The DP discharges (dumping stored energy is
cheaper than holding it when the terminal feed-in credit is negative) and
the central-difference shadow price is −0.99 EUR/kWh. -/
theorem opt_tiny_eval : optimize_battery_schedule cfg_tiny_aligned (0.035) [1]
    (some [-1]) [0] [0] 15 0.03 0.05 none =
    { power_schedule_kw := [-(1/10)]
      mode_schedule := [.discharging]
      soc_schedule_kwh := [7/200, 1/100]
      total_cost := 49/2000
      baseline_cost := 0
      savings := -(49/2000)
      optimal_power_kw := -(1/10)
      optimal_mode := .discharging
      shadow_price_eur_kwh := -(99/100)
      price_forecast := [1]
      pv_forecast := [0]
      consumption_forecast := [0] } := by
  have t0 : (0:ℤ).toNat = 0 := rfl
  have t1 : (1:ℤ).toNat = 1 := rfl
  have t2 : (2:ℤ).toNat = 2 := rfl
  have t3 : (3:ℤ).toNat = 3 := rfl
  have hr1 : List.range 1 = [0] := rfl
  have hr2 : List.range 2 = [0, 1] := rfl
  have hr3 : List.range 3 = [0, 1, 2] := rfl
  have hstates : soc_states 10 60 = [10, 35, 60] := by decide
  have g0 : ∀ (a b c : Cost), List.getD [a,b,c] 0 ⊤ = a := fun _ _ _ => rfl
  have g1 : ∀ (a b c : Cost), List.getD [a,b,c] 1 ⊤ = b := fun _ _ _ => rfl
  have g2 : ∀ (a b c : Cost), List.getD [a,b,c] 2 ⊤ = c := fun _ _ _ => rfl
  have q0 : ∀ (a b c : ℚ), List.getD [a,b,c] 0 0 = a := fun _ _ _ => rfl
  have q1 : ∀ (a b c : ℚ), List.getD [a,b,c] 1 0 = b := fun _ _ _ => rfl
  have q2 : ∀ (a b c : ℚ), List.getD [a,b,c] 2 0 = c := fun _ _ _ => rfl
  have z0 : ∀ (a b c d : ℤ), List.getD [a,b,c] 0 d = a := fun _ _ _ _ => rfl
  have z1 : ∀ (a b c d : ℤ), List.getD [a,b,c] 1 d = b := fun _ _ _ _ => rfl
  have z2 : ∀ (a b c d : ℤ), List.getD [a,b,c] 2 d = c := fun _ _ _ _ => rfl
  norm_num [optimize_battery_schedule, cfg_tiny_aligned,
    BatteryConfig.min_soc_kwh, BatteryConfig.max_soc_kwh, pyInt, hstates,
    empty_result, SOC_RESOLUTION_WH, find_nearest_soc_idx, pyRound,
    charge_actions, discharge_actions, step_data, backward_pass, backward_step,
    best_action_at, action_new_soc, action_total, calculate_step_cost,
    step_net_grid_w, step_dc_split, terminal_V, forward_pass,
    filter_oscillations, filter_step, get_charge_cost, charge_unprofitable,
    discharge_unprofitable, recompute_soc, unCost,
    t0, t1, t2, t3, hr1, hr2, hr3, g0, g1, g2, q0, q1, q2, z0, z1, z2,
    abs_of_nonneg, abs_of_nonpos, WithTop.coe_lt_coe, WithTop.coe_lt_top,
    WithTop.coe_le_coe, ← WithTop.coe_add, WithTop.untop'_coe]

/-- C4 witness: the bound applied to the concrete run `opt_tiny_eval`, whose
schedule contains the discharge entry −0.1 kW, bounded by the 0.1 kW rating. -/
theorem C4_witness :
    (-(1/10 : ℚ)) ∈ (optimize_battery_schedule cfg_tiny_aligned (0.035) [1]
      (some [-1]) [0] [0] 15 0.03 0.05 none).power_schedule_kw ∧
    -(-(1/10 : ℚ)) ≤ cfg_tiny_aligned.max_discharge_power_kw := by
  have hmem : (-(1/10 : ℚ)) ∈ (optimize_battery_schedule cfg_tiny_aligned
      (0.035) [1] (some [-1]) [0] [0] 15 0.03 0.05 none).power_schedule_kw := by
    rw [opt_tiny_eval]
    simp
  exact ⟨hmem, (C4_schedule_power_bounded cfg_tiny_aligned (0.035) [1]
    (some [-1]) [0] [0] 15 0.03 0.05 none (-(1/10)) hmem).2 (by norm_num)⟩

/-- C8 counterexample: with a negative feed-in price the shadow price is
negative even though the horizon is non-empty and the current SoC snaps to
an interior bin with headroom in both directions (grid `[10, 35, 60]`,
bin 1): stored energy is then a liability, so "adding stored energy never
increases the minimum achievable cost" fails and the returned shadow price
is −0.99 < 0. -/
theorem C8_counterexample_negative_feed_in :
    (optimize_battery_schedule cfg_tiny_aligned (0.035) [1] (some [-1]) [0]
      [0] 15 0.03 0.05 none).shadow_price_eur_kwh < 0 ∧
    soc_states (pyInt (cfg_tiny_aligned.min_soc_kwh * 1000))
      (pyInt (cfg_tiny_aligned.max_soc_kwh * 1000)) = [10, 35, 60] ∧
    find_nearest_soc_idx ((pyInt ((0.035 : ℚ) * 1000) : ℤ) : ℚ)
      (soc_states (pyInt (cfg_tiny_aligned.min_soc_kwh * 1000))
        (pyInt (cfg_tiny_aligned.max_soc_kwh * 1000))) = 1 := by
  have hmin : pyInt (cfg_tiny_aligned.min_soc_kwh * 1000) = 10 := by
    norm_num [pyInt, cfg_tiny_aligned, BatteryConfig.min_soc_kwh]
  have hmax : pyInt (cfg_tiny_aligned.max_soc_kwh * 1000) = 60 := by
    norm_num [pyInt, cfg_tiny_aligned, BatteryConfig.max_soc_kwh]
  have hcur : pyInt ((0.035 : ℚ) * 1000) = 35 := by
    norm_num [pyInt]
  refine ⟨?_, ?_, ?_⟩
  · rw [opt_tiny_eval]
    norm_num
  · rw [hmin, hmax]
    decide
  · rw [hmin, hmax, hcur]
    have hstates : soc_states 10 60 = [10, 35, 60] := by decide
    rw [hstates]
    have z0 : ∀ (a b c d : ℤ), List.getD [a,b,c] 0 d = a := fun _ _ _ _ => rfl
    have z1 : ∀ (a b c d : ℤ), List.getD [a,b,c] 1 d = b := fun _ _ _ _ => rfl
    have t1 : (1:ℤ).toNat = 1 := rfl
    norm_num [find_nearest_soc_idx, pyRound, z0, z1, t1]

theorem getD_set_ne {α : Type} (l : List α) (i j : ℕ) (x d : α) (h : i ≠ j) :
    (l.set i x).getD j d = l.getD j d := by
  simp [List.getD_eq_getElem?_getD, List.getElem?_set_ne h]

theorem getD_set_self {α : Type} (l : List α) (i : ℕ) (x d : α)
    (h : i < l.length) :
    (l.set i x).getD i d = x := by
  simp [List.getD_eq_getElem?_getD, List.getElem?_set_self, h]

theorem recompute_soc_eq_replay (time_step_hours min_soc_kwh max_soc_kwh : ℚ)
    (l : List ℚ) (s : ℚ) :
    recompute_soc l s time_step_hours min_soc_kwh max_soc_kwh =
      s :: soc_replay time_step_hours min_soc_kwh max_soc_kwh s l := by
  have key : ∀ (l : List ℚ) (A : List ℚ) (c : ℚ),
      (l.foldl (fun (acc : List ℚ × ℚ) power_kw =>
        let next :=
          if 0 < power_kw then
            min (acc.2 + power_kw * time_step_hours) max_soc_kwh
          else if power_kw < 0 then
            max (acc.2 + power_kw * time_step_hours) min_soc_kwh
          else acc.2
        (acc.1 ++ [next], next)) (A, c)).1 =
      A ++ soc_replay time_step_hours min_soc_kwh max_soc_kwh c l := by
    intro l
    induction l with
    | nil => intro A c; simp [soc_replay]
    | cons x l ih =>
        intro A c
        rw [List.foldl_cons]
        show (l.foldl _ (A ++ [_], _)).1 = _
        rw [ih]
        simp [soc_replay, soc_step]
  unfold recompute_soc
  rw [key l [s] s]
  simp

theorem filter_fold_spec (price pv cons fi : List ℚ) (rte ma : ℚ)
    (p₀ : List ℚ) (m₀ : List PowerMode) (hlen : p₀.length = m₀.length) :
    ∀ k : ℕ, k ≤ m₀.length - 1 →
    (((List.range k).foldl (filter_step price pv cons fi rte ma) (p₀, m₀)).1.length
        = p₀.length) ∧
    (((List.range k).foldl (filter_step price pv cons fi rte ma) (p₀, m₀)).2.length
        = m₀.length) ∧
    (∀ j, k ≤ j →
      ((List.range k).foldl (filter_step price pv cons fi rte ma) (p₀, m₀)).1.getD j 0
          = p₀.getD j 0 ∧
      ((List.range k).foldl (filter_step price pv cons fi rte ma) (p₀, m₀)).2.getD j .idle
          = m₀.getD j .idle) ∧
    (∀ j, j < k →
      (((m₀.getD j .idle = PowerMode.charging ∧
          spec_charge_window_bad price pv cons fi rte ma m₀ j) ∨
        (m₀.getD j .idle = PowerMode.discharging ∧
          spec_discharge_window_bad price pv cons fi rte ma m₀ j)) →
        ((List.range k).foldl (filter_step price pv cons fi rte ma) (p₀, m₀)).1.getD j 0
            = 0 ∧
        ((List.range k).foldl (filter_step price pv cons fi rte ma) (p₀, m₀)).2.getD j .idle
            = PowerMode.idle) ∧
      (¬ ((m₀.getD j .idle = PowerMode.charging ∧
          spec_charge_window_bad price pv cons fi rte ma m₀ j) ∨
        (m₀.getD j .idle = PowerMode.discharging ∧
          spec_discharge_window_bad price pv cons fi rte ma m₀ j)) →
        ((List.range k).foldl (filter_step price pv cons fi rte ma) (p₀, m₀)).1.getD j 0
            = p₀.getD j 0 ∧
        ((List.range k).foldl (filter_step price pv cons fi rte ma) (p₀, m₀)).2.getD j .idle
            = m₀.getD j .idle)) := by
  intro k
  induction k with
  | zero =>
      intro _
      refine ⟨rfl, rfl, fun j _ => ⟨rfl, rfl⟩, fun j hj => absurd hj (Nat.not_lt_zero j)⟩
  | succ k ih =>
      intro hk1
      have hk : k ≤ m₀.length - 1 := Nat.le_of_succ_le hk1
      have hn : k < m₀.length := by omega
      obtain ⟨L1, L2, U, D⟩ := ih hk
      set st := (List.range k).foldl (filter_step price pv cons fi rte ma) (p₀, m₀)
        with hst
      have hfold : (List.range (k+1)).foldl (filter_step price pv cons fi rte ma)
          (p₀, m₀) = filter_step price pv cons fi rte ma st k := by
        rw [List.range_succ, List.foldl_append, List.foldl_cons, List.foldl_nil]
      have hmk : st.2.getD k .idle = m₀.getD k .idle := (U k le_rfl).2
      -- window membership transfer
      have hwinC : ((List.range' (k+1) (min (k+8) st.2.length - (k+1))).any
          (fun j => st.2.getD j .idle == PowerMode.discharging &&
            charge_unprofitable price pv cons fi rte ma k j) = true) ↔
          spec_charge_window_bad price pv cons fi rte ma m₀ k := by
        rw [List.any_eq_true]
        constructor
        · rintro ⟨j, hjmem, hpred⟩
          rw [List.mem_range'_1] at hjmem
          rw [Bool.and_eq_true, beq_iff_eq] at hpred
          have hj2 : k + 1 ≤ j ∧ j < min (k+8) m₀.length := by
            rw [L2] at hjmem
            omega
          have hmj : st.2.getD j .idle = m₀.getD j .idle := (U j (by omega)).2
          refine ⟨j, hj2.1, hj2.2, hmj ▸ hpred.1, ?_⟩
          have := hpred.2
          rwa [charge_unprofitable, decide_eq_true_eq] at this
        · rintro ⟨j, hj1, hj2, hmj, hspread⟩
          refine ⟨j, ?_, ?_⟩
          · rw [List.mem_range'_1, L2]
            omega
          · rw [Bool.and_eq_true, beq_iff_eq]
            have hmj' : st.2.getD j .idle = m₀.getD j .idle := (U j (by omega)).2
            exact ⟨hmj' ▸ hmj, by rwa [charge_unprofitable, decide_eq_true_eq]⟩
      have hwinD : ((List.range' (k+1) (min (k+8) st.2.length - (k+1))).any
          (fun j => st.2.getD j .idle == PowerMode.charging &&
            discharge_unprofitable price pv cons fi rte ma k j) = true) ↔
          spec_discharge_window_bad price pv cons fi rte ma m₀ k := by
        rw [List.any_eq_true]
        constructor
        · rintro ⟨j, hjmem, hpred⟩
          rw [List.mem_range'_1] at hjmem
          rw [Bool.and_eq_true, beq_iff_eq] at hpred
          have hj2 : k + 1 ≤ j ∧ j < min (k+8) m₀.length := by
            rw [L2] at hjmem
            omega
          have hmj : st.2.getD j .idle = m₀.getD j .idle := (U j (by omega)).2
          refine ⟨j, hj2.1, hj2.2, hmj ▸ hpred.1, ?_⟩
          have := hpred.2
          rwa [discharge_unprofitable, decide_eq_true_eq] at this
        · rintro ⟨j, hj1, hj2, hmj, hspread⟩
          refine ⟨j, ?_, ?_⟩
          · rw [List.mem_range'_1, L2]
            omega
          · rw [Bool.and_eq_true, beq_iff_eq]
            have hmj' : st.2.getD j .idle = m₀.getD j .idle := (U j (by omega)).2
            exact ⟨hmj' ▸ hmj, by rwa [discharge_unprofitable, decide_eq_true_eq]⟩
      rw [hfold]
      rcases hm : m₀.getD k .idle with _ | _ | _
      case charging =>
        have hstep : filter_step price pv cons fi rte ma st k =
            (if (List.range' (k+1) (min (k+8) st.2.length - (k+1))).any
                (fun j => st.2.getD j .idle == PowerMode.discharging &&
                  charge_unprofitable price pv cons fi rte ma k j) then
              (st.1.set k 0, st.2.set k .idle)
            else st) := by
          unfold filter_step
          rw [hmk, hm]
        by_cases hany : (List.range' (k+1) (min (k+8) st.2.length - (k+1))).any
            (fun j => st.2.getD j .idle == PowerMode.discharging &&
              charge_unprofitable price pv cons fi rte ma k j) = true
        · rw [hstep, if_pos hany]
          have hbad := hwinC.mp hany
          refine ⟨by simpa using L1, by simpa using L2, ?_, ?_⟩
          · intro j hj
            constructor
            · rw [getD_set_ne _ _ _ _ _ (by omega)]
              exact (U j (by omega)).1
            · rw [getD_set_ne _ _ _ _ _ (by omega)]
              exact (U j (by omega)).2
          · intro j hj
            rcases Nat.lt_or_ge j k with hjk | hjk
            · constructor
              · intro hcond
                have := (D j hjk).1 hcond
                constructor
                · rw [getD_set_ne _ _ _ _ _ (by omega)]
                  exact this.1
                · rw [getD_set_ne _ _ _ _ _ (by omega)]
                  exact this.2
              · intro hcond
                have := (D j hjk).2 hcond
                constructor
                · rw [getD_set_ne _ _ _ _ _ (by omega)]
                  exact this.1
                · rw [getD_set_ne _ _ _ _ _ (by omega)]
                  exact this.2
            · have hjeq : j = k := by omega
              subst hjeq
              constructor
              · intro _
                constructor
                · exact getD_set_self _ _ _ _ (by rw [L1, hlen]; exact hn)
                · exact getD_set_self _ _ _ _ (by rw [L2]; exact hn)
              · intro hcond
                exact absurd (Or.inl ⟨hm, hbad⟩) hcond
        · rw [hstep, if_neg hany]
          refine ⟨L1, L2, fun j hj => ⟨(U j (by omega)).1, (U j (by omega)).2⟩, ?_⟩
          intro j hj
          rcases Nat.lt_or_ge j k with hjk | hjk
          · exact D j hjk
          · have hjeq : j = k := by omega
            subst hjeq
            constructor
            · intro hcond
              rcases hcond with ⟨_, hbad⟩ | ⟨hdis, _⟩
              · exact absurd (hwinC.mpr hbad) hany
              · rw [hm] at hdis
                exact absurd hdis (by intro h; cases h)
            · intro _
              exact ⟨(U j le_rfl).1, (U j le_rfl).2⟩
      case discharging =>
        have hstep : filter_step price pv cons fi rte ma st k =
            (if (List.range' (k+1) (min (k+8) st.2.length - (k+1))).any
                (fun j => st.2.getD j .idle == PowerMode.charging &&
                  discharge_unprofitable price pv cons fi rte ma k j) then
              (st.1.set k 0, st.2.set k .idle)
            else st) := by
          unfold filter_step
          rw [hmk, hm]
        by_cases hany : (List.range' (k+1) (min (k+8) st.2.length - (k+1))).any
            (fun j => st.2.getD j .idle == PowerMode.charging &&
              discharge_unprofitable price pv cons fi rte ma k j) = true
        · rw [hstep, if_pos hany]
          have hbad := hwinD.mp hany
          refine ⟨by simpa using L1, by simpa using L2, ?_, ?_⟩
          · intro j hj
            constructor
            · rw [getD_set_ne _ _ _ _ _ (by omega)]
              exact (U j (by omega)).1
            · rw [getD_set_ne _ _ _ _ _ (by omega)]
              exact (U j (by omega)).2
          · intro j hj
            rcases Nat.lt_or_ge j k with hjk | hjk
            · constructor
              · intro hcond
                have := (D j hjk).1 hcond
                constructor
                · rw [getD_set_ne _ _ _ _ _ (by omega)]
                  exact this.1
                · rw [getD_set_ne _ _ _ _ _ (by omega)]
                  exact this.2
              · intro hcond
                have := (D j hjk).2 hcond
                constructor
                · rw [getD_set_ne _ _ _ _ _ (by omega)]
                  exact this.1
                · rw [getD_set_ne _ _ _ _ _ (by omega)]
                  exact this.2
            · have hjeq : j = k := by omega
              subst hjeq
              constructor
              · intro _
                constructor
                · exact getD_set_self _ _ _ _ (by rw [L1, hlen]; exact hn)
                · exact getD_set_self _ _ _ _ (by rw [L2]; exact hn)
              · intro hcond
                exact absurd (Or.inr ⟨hm, hbad⟩) hcond
        · rw [hstep, if_neg hany]
          refine ⟨L1, L2, fun j hj => ⟨(U j (by omega)).1, (U j (by omega)).2⟩, ?_⟩
          intro j hj
          rcases Nat.lt_or_ge j k with hjk | hjk
          · exact D j hjk
          · have hjeq : j = k := by omega
            subst hjeq
            constructor
            · intro hcond
              rcases hcond with ⟨hch, _⟩ | ⟨_, hbad⟩
              · rw [hm] at hch
                exact absurd hch (by intro h; cases h)
              · exact absurd (hwinD.mpr hbad) hany
            · intro _
              exact ⟨(U j le_rfl).1, (U j le_rfl).2⟩
      case idle =>
        have hstep : filter_step price pv cons fi rte ma st k = st := by
          unfold filter_step
          rw [hmk, hm]
        rw [hstep]
        refine ⟨L1, L2, fun j hj => ⟨(U j (by omega)).1, (U j (by omega)).2⟩, ?_⟩
        intro j hj
        rcases Nat.lt_or_ge j k with hjk | hjk
        · exact D j hjk
        · have hjeq : j = k := by omega
          subst hjeq
          constructor
          · intro hcond
            rcases hcond with ⟨hch, _⟩ | ⟨hdis, _⟩
            · rw [hm] at hch
              exact absurd hch (by intro h; cases h)
            · rw [hm] at hdis
              exact absurd hdis (by intro h; cases h)
          · intro _
            exact ⟨(U j le_rfl).1, (U j le_rfl).2⟩

/-- C6 (confirmed): the oscillation filter turns a charging step `i` into
idle (power 0) exactly when a discharging step exists within the next 7
steps whose effective spread `price[j] - charge_cost(i)/rte` falls below
`(2*degradation + min_price_spread)/sqrt_rte`, where the charge cost at `i`
is the feed-in price when the contemporaneous PV surplus exceeds 0.05 kW
and the grid buy price otherwise (`get_charge_cost`); steps not zeroed are
returned unchanged, and the SoC trajectory is recomputed from the filtered
powers (one clamped `soc_step` per power, starting from the input SoC). -/
theorem C6_filter_characterization (p₀ : List ℚ) (m₀ : List PowerMode)
    (soc price : List ℚ) (sp deg rte srte dt mn mx : ℚ) (pv cons fi : List ℚ)
    (hlen : p₀.length = m₀.length) (i : ℕ)
    (hch : m₀.getD i .idle = PowerMode.charging) :
    (((filter_oscillations p₀ m₀ soc price sp deg rte srte dt mn mx pv cons
        fi).2.1.getD i .idle = PowerMode.idle ∧
      (filter_oscillations p₀ m₀ soc price sp deg rte srte dt mn mx pv cons
        fi).1.getD i 0 = 0) ↔
      spec_charge_window_bad price pv cons fi rte ((2 * deg + sp) / srte) m₀ i) ∧
    (¬ spec_charge_window_bad price pv cons fi rte ((2 * deg + sp) / srte) m₀ i →
      (filter_oscillations p₀ m₀ soc price sp deg rte srte dt mn mx pv cons
        fi).1.getD i 0 = p₀.getD i 0 ∧
      (filter_oscillations p₀ m₀ soc price sp deg rte srte dt mn mx pv cons
        fi).2.1.getD i .idle = PowerMode.charging) ∧
    (filter_oscillations p₀ m₀ soc price sp deg rte srte dt mn mx pv cons
        fi).2.2 =
      soc.getD 0 0 :: soc_replay dt mn mx (soc.getD 0 0)
        (filter_oscillations p₀ m₀ soc price sp deg rte srte dt mn mx pv cons
          fi).1 := by
  have hi : i < m₀.length := by
    by_contra h
    push_neg at h
    rw [List.getD_eq_default _ _ h] at hch
    exact absurd hch (by intro h'; cases h')
  have hpne : ¬ (p₀.length = 0) := by omega
  have e : filter_oscillations p₀ m₀ soc price sp deg rte srte dt mn mx pv cons fi =
      (((List.range (m₀.length - 1)).foldl
          (filter_step price pv cons fi rte ((2 * deg + sp) / srte)) (p₀, m₀)).1,
       ((List.range (m₀.length - 1)).foldl
          (filter_step price pv cons fi rte ((2 * deg + sp) / srte)) (p₀, m₀)).2,
       recompute_soc
         (((List.range (m₀.length - 1)).foldl
            (filter_step price pv cons fi rte ((2 * deg + sp) / srte)) (p₀, m₀)).1)
         (soc.getD 0 0) dt mn mx) := by
    unfold filter_oscillations
    rw [if_neg hpne]
  rw [e]
  obtain ⟨L1, L2, U, D⟩ := filter_fold_spec price pv cons fi rte
    ((2 * deg + sp) / srte) p₀ m₀ hlen (m₀.length - 1) le_rfl
  have hcond_iff : ((m₀.getD i .idle = PowerMode.charging ∧
      spec_charge_window_bad price pv cons fi rte ((2 * deg + sp) / srte) m₀ i) ∨
      (m₀.getD i .idle = PowerMode.discharging ∧
      spec_discharge_window_bad price pv cons fi rte ((2 * deg + sp) / srte) m₀ i)) ↔
      spec_charge_window_bad price pv cons fi rte ((2 * deg + sp) / srte) m₀ i := by
    constructor
    · rintro (⟨_, h⟩ | ⟨hd, _⟩)
      · exact h
      · rw [hch] at hd
        exact absurd hd (by intro h'; cases h')
    · intro h
      exact Or.inl ⟨hch, h⟩
  refine ⟨?_, ?_, ?_⟩
  · rcases Nat.lt_or_ge i (m₀.length - 1) with hilt | hige
    · constructor
      · rintro ⟨hmode, _⟩
        by_contra hnb
        have hun := (D i hilt).2 ((not_iff_not.mpr hcond_iff).mpr hnb)
        rw [hun.2, hch] at hmode
        exact absurd hmode (by intro h'; cases h')
      · intro hb
        have := (D i hilt).1 (hcond_iff.mpr hb)
        exact ⟨this.2, this.1⟩
    · have hieq : i = m₀.length - 1 := by omega
      have hnb : ¬ spec_charge_window_bad price pv cons fi rte
          ((2 * deg + sp) / srte) m₀ i := by
        rintro ⟨j, hj1, hj2, _, _⟩
        omega
      constructor
      · rintro ⟨hmode, _⟩
        rw [(U i hige).2, hch] at hmode
        exact absurd hmode (by intro h'; cases h')
      · intro hb
        exact absurd hb hnb
  · intro hnb
    rcases Nat.lt_or_ge i (m₀.length - 1) with hilt | hige
    · have hun := (D i hilt).2 ((not_iff_not.mpr hcond_iff).mpr hnb)
      exact ⟨hun.1, hun.2.trans hch⟩
    · exact ⟨(U i hige).1, ((U i hige).2).trans hch⟩
  · exact recompute_soc_eq_replay dt mn mx _ _

/-- C6 witness: a concrete two-step schedule (charge then discharge at equal
prices, spread below threshold) has its charging step zeroed to idle. -/
theorem C6_witness :
    ([PowerMode.charging, PowerMode.discharging].getD 0 .idle = PowerMode.charging ∧
      spec_charge_window_bad [0.1, 0.1] [0, 0] [0.5, 0.5] [0.1, 0.1] (0.9025)
        ((2 * 0.03 + 0.05) / 0.95) [PowerMode.charging, PowerMode.discharging] 0) ∧
    (filter_oscillations [0.1, -0.1] [PowerMode.charging, PowerMode.discharging] [1, 1.025, 1] [0.1, 0.1] 0.05 0.03
      (0.9025) (0.95) (1/4) 1 9 [0, 0] [0.5, 0.5] [0.1, 0.1]).2.1.getD 0 .idle =
      PowerMode.idle := by
  have hbad : spec_charge_window_bad [0.1, 0.1] [0, 0] [0.5, 0.5] [0.1, 0.1]
      (0.9025) ((2 * 0.03 + 0.05) / 0.95) [PowerMode.charging, PowerMode.discharging] 0 := by
    refine ⟨1, le_refl 1, by norm_num, by norm_num, ?_⟩
    norm_num [get_charge_cost]
  refine ⟨⟨rfl, hbad⟩, ?_⟩
  exact ((C6_filter_characterization [0.1, -0.1] [PowerMode.charging, PowerMode.discharging] [1, 1.025, 1] [0.1, 0.1]
    0.05 0.03 (0.9025) (0.95) (1/4) 1 9 [0, 0] [0.5, 0.5] [0.1, 0.1]
    (by norm_num) 0 rfl).1.mpr hbad).1

theorem pyRound_intCast (t : ℤ) : pyRound (t : ℚ) = t := by
  unfold pyRound
  rw [Int.floor_intCast]
  norm_num

theorem soc_states_length {minWh maxWh K : ℤ} (hK : maxWh - minWh = 25 * K)
    (hK0 : 0 ≤ K) :
    (soc_states minWh maxWh).length = K.toNat + 1 := by
  unfold soc_states
  rw [List.length_map, List.length_range]
  have h1 : maxWh + SOC_RESOLUTION_WH - minWh + (SOC_RESOLUTION_WH - 1) =
      25 * (K + 1) + 24 := by
    unfold SOC_RESOLUTION_WH
    omega
  rw [h1]
  have h2 : (25 * (K + 1) + 24).fdiv 25 = K + 1 := by
    rw [Int.fdiv_eq_ediv _ (by omega)]
    omega
  unfold SOC_RESOLUTION_WH
  rw [h2]
  omega

theorem soc_states_getD {minWh maxWh K : ℤ} (hK : maxWh - minWh = 25 * K)
    (hK0 : 0 ≤ K) (k : ℕ) (hk : k < (soc_states minWh maxWh).length) :
    (soc_states minWh maxWh).getD k 0 = minWh + 25 * k := by
  have hlen := soc_states_length hK hK0
  unfold soc_states at hk ⊢
  rw [List.getD_eq_getElem _ _ hk]
  rw [List.getElem_map]
  rw [List.getElem_range]
  unfold SOC_RESOLUTION_WH
  ring

theorem find_nearest_exact {minWh maxWh K : ℤ} (hK : maxWh - minWh = 25 * K)
    (hK1 : 1 ≤ K) (t : ℤ) (ht0 : 0 ≤ t) (htK : t ≤ K) :
    find_nearest_soc_idx ((minWh + 25 * t : ℤ) : ℚ) (soc_states minWh maxWh) =
      t.toNat := by
  have hK0 : 0 ≤ K := by omega
  have hlen := soc_states_length hK hK0
  have h0 : (soc_states minWh maxWh).getD 0 0 = minWh + 25 * (0:ℕ) :=
    soc_states_getD hK hK0 0 (by omega)
  have h1 : (soc_states minWh maxWh).getD 1 0 = minWh + 25 * (1:ℕ) :=
    soc_states_getD hK hK0 1 (by omega)
  unfold find_nearest_soc_idx
  rw [if_neg (by omega)]
  rw [h0, h1]
  have hstep : (minWh + 25 * ((1:ℕ):ℤ)) - (minWh + 25 * ((0:ℕ):ℤ)) = 25 := by
    norm_num
  rw [hstep]
  have harg : (((minWh + 25 * t : ℤ) : ℚ) - ((minWh + 25 * ((0:ℕ):ℤ) : ℤ) : ℚ)) /
      ((25 : ℤ) : ℚ) = (t : ℚ) := by
    push_cast
    field_simp
  simp only [harg, pyRound_intCast, hlen]
  omega

theorem mem_charge_actions_of_le {M : ℚ} {u : ℤ} (h0 : 0 ≤ u)
    (hu : u ≤ pyInt (M / 100)) : (100 * (u : ℚ)) ∈ charge_actions M := by
  unfold charge_actions
  rw [List.mem_map]
  refine ⟨u.toNat, List.mem_range.mpr (by omega), ?_⟩
  have h2 : ((u.toNat : ℕ) : ℚ) = ((u : ℤ) : ℚ) := by
    exact_mod_cast Int.toNat_of_nonneg h0
  rw [h2]
  ring

theorem mem_charge_actions_struct {M a : ℚ} (ha : a ∈ charge_actions M) :
    ∃ u : ℤ, 0 ≤ u ∧ u ≤ pyInt (M / 100) ∧ a = 100 * (u : ℚ) := by
  unfold charge_actions at ha
  rw [List.mem_map] at ha
  obtain ⟨u, hu, rfl⟩ := ha
  rw [List.mem_range] at hu
  refine ⟨(u : ℤ), by positivity, by omega, ?_⟩
  push_cast
  ring

theorem mem_discharge_actions_struct {M a : ℚ} (ha : a ∈ discharge_actions M) :
    ∃ v : ℤ, 1 ≤ v ∧ v ≤ pyInt (M / 100) ∧ a = -(100 * (v : ℚ)) := by
  unfold discharge_actions at ha
  rw [List.mem_map] at ha
  obtain ⟨k, hk, rfl⟩ := ha
  rw [List.mem_range] at hk
  refine ⟨pyInt (M / 100) - (k : ℤ), by omega, by omega, ?_⟩
  push_cast
  ring

theorem step_net_grid_w_mono (a₁ a₂ pvw cw pvdc srte dce : ℚ)
    (hsr : 0 < srte) (hdc : 0 < dce) (h1 : 0 ≤ a₁) (h12 : a₁ ≤ a₂) :
    step_net_grid_w a₁ pvw cw pvdc srte dce ≤
      step_net_grid_w a₂ pvw cw pvdc srte dce := by
  rcases eq_or_lt_of_le h12 with rfl | hlt
  · exact le_refl _
  rcases eq_or_lt_of_le h1 with rfl | hpos1
  · -- a₁ = 0 (idle branch), a₂ > 0 (charge branch)
    have hpos2 : (0:ℚ) < a₂ := hlt
    unfold step_net_grid_w step_dc_split
    rw [if_neg (lt_irrefl 0), if_pos hpos2]
    simp only
    rw [if_neg (lt_irrefl (0:ℚ))]
    set c := pvdc * dce with hc
    set used := min a₂ c / dce with hused
    set e₂ := max 0 (pvdc - used) with he
    have hgtb : 0 ≤ (if 0 < a₂ - min a₂ c then (a₂ - min a₂ c) / srte else 0) := by
      split_ifs with h
      · exact div_nonneg (le_of_lt h) (le_of_lt hsr)
      · exact le_refl 0
    have hkey : (if 0 < e₂ then e₂ * 0.96 else 0) ≤
        (if 0 < pvdc then pvdc * 0.96 else 0) := by
      rcases le_or_lt 0 pvdc with hp | hp
      · have hc0 : 0 ≤ c := mul_nonneg hp (le_of_lt hdc)
        have husednn : 0 ≤ used := by
          rw [hused]
          exact div_nonneg (le_min (le_of_lt hpos2) hc0) (le_of_lt hdc)
        have he2 : e₂ ≤ pvdc := by
          rw [he]
          exact max_le (by linarith [husednn]) (by linarith [husednn])
        have he2nn : 0 ≤ e₂ := le_max_left 0 _
        split_ifs with hA hB hB
        · nlinarith
        · exact absurd (lt_of_lt_of_le hA he2) hB
        · positivity
        · exact le_refl 0
      · have hcneg : c < 0 := mul_neg_of_neg_of_pos hp hdc
        have hmin : min a₂ c = c := min_eq_right (by linarith)
        have hused' : used = pvdc := by
          rw [hused, hmin, hc]
          field_simp
        have he2 : e₂ = 0 := by
          rw [he, hused']
          simp
        rw [he2, if_neg (lt_irrefl 0), if_neg (not_lt.mpr (le_of_lt hp))]
    linarith [hgtb, hkey]
  · -- both positive
    have hpos2 : (0:ℚ) < a₂ := lt_trans hpos1 hlt
    unfold step_net_grid_w step_dc_split
    rw [if_pos hpos1, if_pos hpos2]
    simp only
    set c := pvdc * dce with hc
    have hminle : min a₁ c ≤ min a₂ c := min_le_min (le_of_lt hlt) (le_refl c)
    have husedle : min a₁ c / dce ≤ min a₂ c / dce :=
      (div_le_div_iff_of_pos_right hdc).mpr hminle
    have hexc : max 0 (pvdc - min a₂ c / dce) ≤ max 0 (pvdc - min a₁ c / dce) :=
      max_le_max (le_refl 0) (by linarith)
    have hac : a₁ - min a₁ c ≤ a₂ - min a₂ c := by
      rcases le_total a₁ c with ha1c | ha1c
      · rw [min_eq_left ha1c]
        rcases le_total a₂ c with ha2c | ha2c
        · rw [min_eq_left ha2c]
          linarith
        · rw [min_eq_right ha2c]
          linarith
      · rw [min_eq_right ha1c, min_eq_right (by linarith)]
        linarith
    have hacnn : 0 ≤ a₁ - min a₁ c := by
      have := min_le_left a₁ c
      linarith
    have hpos96 : (if 0 < max 0 (pvdc - min a₂ c / dce) then
        max 0 (pvdc - min a₂ c / dce) * 0.96 else 0) ≤
        (if 0 < max 0 (pvdc - min a₁ c / dce) then
        max 0 (pvdc - min a₁ c / dce) * 0.96 else 0) := by
      split_ifs with hA hB hB
      · nlinarith [hexc]
      · exfalso
        exact hB (lt_of_lt_of_le hA hexc)
      · positivity
      · exact le_refl 0
    have hgtbm : (if 0 < a₁ - min a₁ c then (a₁ - min a₁ c) / srte else 0) ≤
        (if 0 < a₂ - min a₂ c then (a₂ - min a₂ c) / srte else 0) := by
      split_ifs with hA hB hB
      · exact (div_le_div_iff_of_pos_right hsr).mpr hac
      · exfalso
        exact hB (lt_of_lt_of_le hA hac)
      · exact div_nonneg (by linarith) (le_of_lt hsr)
      · exact le_refl 0
    linarith [hpos96, hgtbm]

theorem calculate_step_cost_mono (dt soc a₁ a₂ gp fip pvw cw srte deg : ℚ)
    (bc : BatteryConfig) (pvdc : ℚ)
    (hdt : 0 ≤ dt) (hgp : 0 ≤ gp) (hfip : 0 ≤ fip) (hdeg : 0 ≤ deg)
    (hsr : 0 < srte)
    (hdc : 0 < (if bc.pv_dc_coupled then bc.pv_dc_efficiency else srte))
    (h1 : 0 ≤ a₁) (h12 : a₁ ≤ a₂) :
    calculate_step_cost dt soc a₁ gp fip pvw cw srte deg bc pvdc ≤
      calculate_step_cost dt soc a₂ gp fip pvw cw srte deg bc pvdc := by
  unfold calculate_step_cost
  set dce := if bc.pv_dc_coupled then bc.pv_dc_efficiency else srte with hdce
  set n₁ := step_net_grid_w a₁ pvw cw pvdc srte dce with hn1
  set n₂ := step_net_grid_w a₂ pvw cw pvdc srte dce with hn2
  have hnet : n₁ ≤ n₂ := step_net_grid_w_mono a₁ a₂ pvw cw pvdc srte dce hsr hdc h1 h12
  have hgc : (if 0 < n₁ then |n₁| * dt / 1000 * gp else -(|n₁| * dt / 1000 * fip)) ≤
      (if 0 < n₂ then |n₂| * dt / 1000 * gp else -(|n₂| * dt / 1000 * fip)) := by
    split_ifs with hA hB hB
    · rw [abs_of_pos hA, abs_of_pos hB]
      have key : 0 ≤ (n₂ - n₁) * dt * gp :=
        mul_nonneg (mul_nonneg (sub_nonneg.mpr hnet) hdt) hgp
      nlinarith [key]
    · exact absurd (lt_of_lt_of_le hA hnet) hB
    · have hx : 0 ≤ |n₂| * dt / 1000 * gp := by positivity
      have hy : 0 ≤ |n₁| * dt / 1000 * fip := by positivity
      linarith
    · push_neg at hA hB
      rw [abs_of_nonpos hA, abs_of_nonpos hB]
      have key : 0 ≤ (n₂ - n₁) * dt * fip :=
        mul_nonneg (mul_nonneg (sub_nonneg.mpr hnet) hdt) hfip
      nlinarith [key]
  have hthr : |a₁| * dt / 1000 * deg ≤ |a₂| * dt / 1000 * deg := by
    rw [abs_of_nonneg h1, abs_of_nonneg (le_trans h1 h12)]
    have key : 0 ≤ (a₂ - a₁) * dt * deg :=
      mul_nonneg (mul_nonneg (sub_nonneg.mpr h12) hdt) hdeg
    nlinarith [key]
  linarith [hgc, hthr]

theorem best_action_at_le (time_step_hours : ℚ) (sd : StepData)
    (sqrt_rte deg : ℚ) (bc : BatteryConfig) (min_soc_wh max_soc_wh : ℤ)
    (states : List ℤ) (Vnext : List Cost) (actions : List ℚ) (soc_wh : ℤ)
    {a : ℚ} (ha : a ∈ actions) {ns : ℚ}
    (hfeas : action_new_soc time_step_hours min_soc_wh max_soc_wh soc_wh a =
      some ns) :
    (best_action_at time_step_hours sd sqrt_rte deg bc min_soc_wh max_soc_wh
      states Vnext actions soc_wh).1 ≤
    action_total time_step_hours sd sqrt_rte deg bc states Vnext soc_wh a ns := by
  unfold best_action_at
  have key : ∀ (l : List ℚ) (init : Cost × ℚ),
      ((l.foldl (fun best action_w =>
        match action_new_soc time_step_hours min_soc_wh max_soc_wh soc_wh action_w with
        | none => best
        | some new_soc_wh =>
            let total := action_total time_step_hours sd sqrt_rte deg bc states
              Vnext soc_wh action_w new_soc_wh
            if total < best.1 then (total, action_w) else best) init).1 ≤ init.1) ∧
      (∀ b ∈ l, ∀ nb, action_new_soc time_step_hours min_soc_wh max_soc_wh soc_wh b =
          some nb →
        (l.foldl (fun best action_w =>
        match action_new_soc time_step_hours min_soc_wh max_soc_wh soc_wh action_w with
        | none => best
        | some new_soc_wh =>
            let total := action_total time_step_hours sd sqrt_rte deg bc states
              Vnext soc_wh action_w new_soc_wh
            if total < best.1 then (total, action_w) else best) init).1 ≤
          action_total time_step_hours sd sqrt_rte deg bc states Vnext soc_wh b nb) := by
    intro l
    induction l with
    | nil =>
        intro init
        exact ⟨le_refl _, fun b hb => absurd hb (List.not_mem_nil b)⟩
    | cons x l ih =>
        intro init
        rw [List.foldl_cons]
        constructor
        · refine le_trans (ih _).1 ?_
          cases hx : action_new_soc time_step_hours min_soc_wh max_soc_wh soc_wh x with
          | none => exact le_refl _
          | some nx =>
              simp only
              split_ifs with hlt
              · exact le_of_lt hlt
              · exact le_refl _
        · intro b hb nb hfb
          rcases List.mem_cons.mp hb with rfl | hbl
          · refine le_trans (ih _).1 ?_
            rw [hfb]
            simp only
            split_ifs with hlt
            · exact le_refl _
            · exact not_lt.mp hlt
          · exact (ih _).2 b hbl nb hfb
  exact (key actions (⊤, 0)).2 a ha ns hfeas

theorem best_action_at_cases (time_step_hours : ℚ) (sd : StepData)
    (sqrt_rte deg : ℚ) (bc : BatteryConfig) (min_soc_wh max_soc_wh : ℤ)
    (states : List ℤ) (Vnext : List Cost) (actions : List ℚ) (soc_wh : ℤ) :
    (best_action_at time_step_hours sd sqrt_rte deg bc min_soc_wh max_soc_wh
      states Vnext actions soc_wh).1 = ⊤ ∨
    ∃ a ∈ actions, ∃ ns,
      action_new_soc time_step_hours min_soc_wh max_soc_wh soc_wh a = some ns ∧
      (best_action_at time_step_hours sd sqrt_rte deg bc min_soc_wh max_soc_wh
        states Vnext actions soc_wh).1 =
        action_total time_step_hours sd sqrt_rte deg bc states Vnext soc_wh a ns := by
  unfold best_action_at
  have key : ∀ (l : List ℚ) (S : List ℚ) (init : Cost × ℚ),
      (∀ x ∈ l, x ∈ S) →
      (init.1 = ⊤ ∨ ∃ a ∈ S, ∃ ns,
        action_new_soc time_step_hours min_soc_wh max_soc_wh soc_wh a = some ns ∧
        init.1 = action_total time_step_hours sd sqrt_rte deg bc states Vnext
          soc_wh a ns) →
      ((l.foldl (fun best action_w =>
        match action_new_soc time_step_hours min_soc_wh max_soc_wh soc_wh action_w with
        | none => best
        | some new_soc_wh =>
            let total := action_total time_step_hours sd sqrt_rte deg bc states
              Vnext soc_wh action_w new_soc_wh
            if total < best.1 then (total, action_w) else best) init).1 = ⊤ ∨
      ∃ a ∈ S, ∃ ns,
        action_new_soc time_step_hours min_soc_wh max_soc_wh soc_wh a = some ns ∧
        (l.foldl (fun best action_w =>
        match action_new_soc time_step_hours min_soc_wh max_soc_wh soc_wh action_w with
        | none => best
        | some new_soc_wh =>
            let total := action_total time_step_hours sd sqrt_rte deg bc states
              Vnext soc_wh action_w new_soc_wh
            if total < best.1 then (total, action_w) else best) init).1 =
          action_total time_step_hours sd sqrt_rte deg bc states Vnext soc_wh
            a ns) := by
    intro l
    induction l with
    | nil => intro S init _ h; exact h
    | cons x l ih =>
        intro S init hsub h
        rw [List.foldl_cons]
        refine ih S _ (fun y hy => hsub y (List.mem_cons_of_mem x hy)) ?_
        cases hx : action_new_soc time_step_hours min_soc_wh max_soc_wh soc_wh x with
        | none => exact h
        | some nx =>
            simp only
            split_ifs with hlt
            · exact Or.inr ⟨x, hsub x (List.mem_cons_self x l), nx, hx, rfl⟩
            · exact h
  exact key actions actions (⊤, 0) (fun x hx => hx) (Or.inl rfl)

theorem action_new_soc_zero (dt : ℚ) (minWh maxWh s : ℤ) :
    action_new_soc dt minWh maxWh s 0 = some ((s : ℤ) : ℚ) := by
  unfold action_new_soc
  norm_num

theorem action_new_soc_charge {dt : ℚ} (hdt : dt = 1/4) (minWh maxWh k u : ℤ)
    (hu : 1 ≤ u) :
    action_new_soc dt minWh maxWh (minWh + 25 * k) (100 * (u : ℚ)) =
      (if maxWh < minWh + 25 * (k + u) then none
       else some (((minWh + 25 * (k + u) : ℤ) : ℚ))) := by
  subst hdt
  unfold action_new_soc
  have hu0 : (0:ℚ) < 100 * (u : ℚ) := by
    have : (1:ℚ) ≤ (u : ℚ) := by exact_mod_cast hu
    linarith
  rw [if_pos hu0]
  have harith : ((minWh + 25 * k : ℤ) : ℚ) + 100 * (u : ℚ) * (1/4) =
      ((minWh + 25 * (k + u) : ℤ) : ℚ) := by
    push_cast
    ring
  rw [harith]
  by_cases h : maxWh < minWh + 25 * (k + u)
  · rw [if_pos (show ((maxWh:ℤ):ℚ) < ((minWh + 25 * (k + u) : ℤ) : ℚ) by
      exact_mod_cast h), if_pos h]
  · rw [if_neg (show ¬ (((maxWh:ℤ):ℚ) < ((minWh + 25 * (k + u) : ℤ) : ℚ)) by
      exact_mod_cast h), if_neg h]

theorem action_new_soc_discharge {dt : ℚ} (hdt : dt = 1/4) (minWh maxWh k v : ℤ)
    (hv : 1 ≤ v) :
    action_new_soc dt minWh maxWh (minWh + 25 * k) (-(100 * (v : ℚ))) =
      (if minWh + 25 * (k - v) < minWh then none
       else some (((minWh + 25 * (k - v) : ℤ) : ℚ))) := by
  subst hdt
  unfold action_new_soc
  have hv0 : (0:ℚ) < 100 * (v : ℚ) := by
    have : (1:ℚ) ≤ (v : ℚ) := by exact_mod_cast hv
    linarith
  rw [if_neg (by linarith), if_pos (by linarith)]
  have habs : |(-(100 * (v : ℚ)))| = 100 * (v : ℚ) := by
    rw [abs_neg, abs_of_pos hv0]
  rw [habs]
  have harith : ((minWh + 25 * k : ℤ) : ℚ) - 100 * (v : ℚ) * (1/4) =
      ((minWh + 25 * (k - v) : ℤ) : ℚ) := by
    push_cast
    ring
  rw [harith]
  by_cases h : minWh + 25 * (k - v) < minWh
  · rw [if_pos (show ((minWh + 25 * (k - v) : ℤ) : ℚ) < ((minWh:ℤ):ℚ) by
      exact_mod_cast h), if_pos h]
  · rw [if_neg (show ¬ (((minWh + 25 * (k - v) : ℤ) : ℚ) < ((minWh:ℤ):ℚ)) by
      exact_mod_cast h), if_neg h]

theorem action_total_aligned (dt : ℚ) (sd : StepData) (srte deg : ℚ)
    (bc : BatteryConfig) {minWh maxWh K : ℤ} (hK : maxWh - minWh = 25 * K)
    (hK1 : 1 ≤ K) (Vnext : List Cost) (s : ℤ) (a : ℚ) (t : ℤ) (ht0 : 0 ≤ t)
    (htK : t ≤ K) :
    action_total dt sd srte deg bc (soc_states minWh maxWh) Vnext s a
      ((minWh + 25 * t : ℤ) : ℚ) =
      ((calculate_step_cost dt (s : ℚ) a sd.grid_price sd.feed_in_price sd.pv_w
        sd.consumption_w srte deg bc sd.pv_dc_w : ℚ) : Cost) +
        Vnext.getD t.toNat ⊤ := by
  unfold action_total
  rw [find_nearest_exact hK hK1 t ht0 htK]

/-- `calculate_step_cost` does not read its `soc_wh` argument (the source
parameter is unused as well). -/
theorem calculate_step_cost_soc_irrel (dt s₁ s₂ a gp fip pvw cw srte deg : ℚ)
    (bc : BatteryConfig) (pvdc : ℚ) :
    calculate_step_cost dt s₁ a gp fip pvw cw srte deg bc pvdc =
    calculate_step_cost dt s₂ a gp fip pvw cw srte deg bc pvdc := rfl

theorem backward_step_good (dt : ℚ) (hdt : dt = 1/4) (sd : StepData)
    (srte deg : ℚ) (bc : BatteryConfig) {minWh maxWh K : ℤ}
    (hK : maxWh - minWh = 25 * K) (hK1 : 1 ≤ K) (Mdis Mch : ℚ)
    (hMch : 0 ≤ pyInt (Mch / 100)) (Vnext : List Cost)
    (hgp : 0 ≤ sd.grid_price) (hfip : 0 ≤ sd.feed_in_price) (hdeg : 0 ≤ deg)
    (hsr : 0 < srte)
    (hdc : 0 < (if bc.pv_dc_coupled then bc.pv_dc_efficiency else srte))
    (hgood : V_good (soc_states minWh maxWh) Vnext) :
    V_good (soc_states minWh maxWh)
      ((backward_step dt srte deg bc minWh maxWh (soc_states minWh maxWh)
        (discharge_actions Mdis ++ charge_actions Mch) sd Vnext).1) := by
  obtain ⟨hVlen, hVmono, hVfin⟩ := hgood
  have hK0 : (0:ℤ) ≤ K := by omega
  have hlen := soc_states_length hK hK0
  have hVlen' : ((backward_step dt srte deg bc minWh maxWh
      (soc_states minWh maxWh) (discharge_actions Mdis ++ charge_actions Mch)
      sd Vnext).1).length = (soc_states minWh maxWh).length := by
    unfold backward_step
    simp
  have hentry : ∀ k, k < (soc_states minWh maxWh).length →
      ((backward_step dt srte deg bc minWh maxWh (soc_states minWh maxWh)
        (discharge_actions Mdis ++ charge_actions Mch) sd Vnext).1).getD k ⊤ =
      (best_action_at dt sd srte deg bc minWh maxWh (soc_states minWh maxWh)
        Vnext (discharge_actions Mdis ++ charge_actions Mch)
        (minWh + 25 * (k : ℤ))).1 := by
    intro k hk
    unfold backward_step
    simp only [List.map_map]
    rw [List.getD_eq_getElem _ _ (by simpa using hk)]
    simp only [List.getElem_map, Function.comp]
    have hsk := soc_states_getD hK hK0 k hk
    rw [List.getD_eq_getElem _ _ hk] at hsk
    rw [hsk]
  have h0mem : (0:ℚ) ∈ discharge_actions Mdis ++ charge_actions Mch := by
    refine List.mem_append_right _ ?_
    have := mem_charge_actions_of_le (le_refl (0:ℤ)) hMch
    simpa using this
  -- generic upper bound by the zero action
  have hzero_bound : ∀ k, k < (soc_states minWh maxWh).length →
      (best_action_at dt sd srte deg bc minWh maxWh (soc_states minWh maxWh)
        Vnext (discharge_actions Mdis ++ charge_actions Mch)
        (minWh + 25 * (k : ℤ))).1 ≤
      ((calculate_step_cost dt ((minWh + 25 * (k : ℤ) : ℤ) : ℚ) 0 sd.grid_price
        sd.feed_in_price sd.pv_w sd.consumption_w srte deg bc sd.pv_dc_w : ℚ) :
        Cost) + Vnext.getD k ⊤ := by
    intro k hk
    have hfeas := action_new_soc_zero dt minWh maxWh (minWh + 25 * (k : ℤ))
    have hle := best_action_at_le dt sd srte deg bc minWh maxWh
      (soc_states minWh maxWh) Vnext _ (minWh + 25 * (k : ℤ)) h0mem hfeas
    rw [action_total_aligned dt sd srte deg bc hK hK1 Vnext _ _ (k : ℤ)
      (by positivity) (by omega)] at hle
    have htn : ((k : ℤ)).toNat = k := by omega
    rwa [htn] at hle
  refine ⟨hVlen', ?_, ?_⟩
  · -- monotonicity
    intro ki kj hij hj
    have hi : ki < (soc_states minWh maxWh).length := lt_of_le_of_lt hij hj
    rw [hentry ki hi, hentry kj hj]
    rcases best_action_at_cases dt sd srte deg bc minWh maxWh
      (soc_states minWh maxWh) Vnext (discharge_actions Mdis ++ charge_actions
        Mch) (minWh + 25 * (ki : ℤ)) with htop | ⟨a, ha, ns, hfeas, heq⟩
    · rw [htop]
      exact le_top
    · rcases List.mem_append.mp ha with hdisA | hchA
      · -- discharging action: same action at the higher state
        obtain ⟨v, hv1, hvM, rfl⟩ := mem_discharge_actions_struct hdisA
        rw [action_new_soc_discharge hdt minWh maxWh (ki : ℤ) v hv1] at hfeas
        by_cases hcond : minWh + 25 * ((ki : ℤ) - v) < minWh
        · rw [if_pos hcond] at hfeas
          exact absurd hfeas (by simp)
        · rw [if_neg hcond] at hfeas
          have hns := Option.some.inj hfeas
          subst hns
          have hvki : v ≤ (ki : ℤ) := by omega
          rw [action_total_aligned dt sd srte deg bc hK hK1 Vnext _ _
            ((ki : ℤ) - v) (by omega) (by omega)] at heq
          have hfeasj : action_new_soc dt minWh maxWh (minWh + 25 * (kj : ℤ))
              (-(100 * (v : ℚ))) =
              some (((minWh + 25 * ((kj : ℤ) - v) : ℤ) : ℚ)) := by
            rw [action_new_soc_discharge hdt minWh maxWh (kj : ℤ) v hv1]
            rw [if_neg (by omega)]
          have hle := best_action_at_le dt sd srte deg bc minWh maxWh
            (soc_states minWh maxWh) Vnext _ (minWh + 25 * (kj : ℤ)) ha hfeasj
          rw [action_total_aligned dt sd srte deg bc hK hK1 Vnext _ _
            ((kj : ℤ) - v) (by omega) (by omega)] at hle
          refine le_trans hle ?_
          rw [heq]
          rw [calculate_step_cost_soc_irrel dt ((minWh + 25 * (kj : ℤ) : ℤ) : ℚ)
            ((minWh + 25 * (ki : ℤ) : ℤ) : ℚ) (-(100 * (v : ℚ))) sd.grid_price
            sd.feed_in_price sd.pv_w sd.consumption_w srte deg bc sd.pv_dc_w]
          apply add_le_add_left
          apply hVmono
          · omega
          · rw [hlen]
            omega
      · -- charging action
        obtain ⟨u, hu0, huM, rfl⟩ := mem_charge_actions_struct hchA
        by_cases hu1 : 1 ≤ u
        · rw [action_new_soc_charge hdt minWh maxWh (ki : ℤ) u hu1] at hfeas
          by_cases hcond : maxWh < minWh + 25 * ((ki : ℤ) + u)
          · rw [if_pos hcond] at hfeas
            exact absurd hfeas (by simp)
          · rw [if_neg hcond] at hfeas
            have hns := Option.some.inj hfeas
            subst hns
            have hkiu : (ki : ℤ) + u ≤ K := by omega
            rw [action_total_aligned dt sd srte deg bc hK hK1 Vnext _ _
              ((ki : ℤ) + u) (by omega) hkiu] at heq
            by_cases hj2 : (kj : ℤ) + u ≤ K
            · -- same action feasible at the higher state
              have hfeasj : action_new_soc dt minWh maxWh
                  (minWh + 25 * (kj : ℤ)) (100 * (u : ℚ)) =
                  some (((minWh + 25 * ((kj : ℤ) + u) : ℤ) : ℚ)) := by
                rw [action_new_soc_charge hdt minWh maxWh (kj : ℤ) u hu1]
                rw [if_neg (by omega)]
              have hle := best_action_at_le dt sd srte deg bc minWh maxWh
                (soc_states minWh maxWh) Vnext _ (minWh + 25 * (kj : ℤ)) ha
                hfeasj
              rw [action_total_aligned dt sd srte deg bc hK hK1 Vnext _ _
                ((kj : ℤ) + u) (by omega) hj2] at hle
              refine le_trans hle ?_
              rw [heq]
              rw [calculate_step_cost_soc_irrel dt
                ((minWh + 25 * (kj : ℤ) : ℤ) : ℚ)
                ((minWh + 25 * (ki : ℤ) : ℤ) : ℚ) (100 * (u : ℚ)) sd.grid_price
                sd.feed_in_price sd.pv_w sd.consumption_w srte deg bc sd.pv_dc_w]
              apply add_le_add_left
              apply hVmono
              · omega
              · rw [hlen]
                omega
            · by_cases hsplit : (ki : ℤ) + u ≤ (kj : ℤ)
              · -- overshoot, target below the higher state: idle there
                refine le_trans (hzero_bound kj hj) ?_
                rw [heq]
                apply add_le_add
                · rw [WithTop.coe_le_coe]
                  rw [calculate_step_cost_soc_irrel dt
                    ((minWh + 25 * (kj : ℤ) : ℤ) : ℚ)
                    ((minWh + 25 * (ki : ℤ) : ℤ) : ℚ) 0 sd.grid_price
                    sd.feed_in_price sd.pv_w sd.consumption_w srte deg bc
                    sd.pv_dc_w]
                  apply calculate_step_cost_mono
                  all_goals first
                    | exact hgp
                    | exact hfip
                    | exact hdeg
                    | exact hsr
                    | exact hdc
                    | positivity
                    | (subst hdt; norm_num)
                · apply hVmono
                  · omega
                  · rw [hlen]
                    omega
              · -- overshoot, target above the higher state: partial charge
                have hu'1 : (1:ℤ) ≤ (ki : ℤ) + u - (kj : ℤ) := by omega
                have hu'M : (ki : ℤ) + u - (kj : ℤ) ≤ pyInt (Mch / 100) := by
                  omega
                have ha' : (100 * (((ki : ℤ) + u - (kj : ℤ) : ℤ) : ℚ)) ∈
                    discharge_actions Mdis ++ charge_actions Mch :=
                  List.mem_append_right _
                    (mem_charge_actions_of_le (by omega) hu'M)
                have hfeasj : action_new_soc dt minWh maxWh
                    (minWh + 25 * (kj : ℤ))
                    (100 * (((ki : ℤ) + u - (kj : ℤ) : ℤ) : ℚ)) =
                    some (((minWh + 25 * ((ki : ℤ) + u) : ℤ) : ℚ)) := by
                  rw [action_new_soc_charge hdt minWh maxWh (kj : ℤ)
                    ((ki : ℤ) + u - (kj : ℤ)) hu'1]
                  rw [if_neg (by omega)]
                  congr 2
                  omega
                have hle := best_action_at_le dt sd srte deg bc minWh maxWh
                  (soc_states minWh maxWh) Vnext _ (minWh + 25 * (kj : ℤ)) ha'
                  hfeasj
                rw [action_total_aligned dt sd srte deg bc hK hK1 Vnext _ _
                  ((ki : ℤ) + u) (by omega) hkiu] at hle
                refine le_trans hle ?_
                rw [heq]
                apply add_le_add_right
                rw [WithTop.coe_le_coe]
                rw [calculate_step_cost_soc_irrel dt
                  ((minWh + 25 * (kj : ℤ) : ℤ) : ℚ)
                  ((minWh + 25 * (ki : ℤ) : ℤ) : ℚ)
                  (100 * (((ki : ℤ) + u - (kj : ℤ) : ℤ) : ℚ)) sd.grid_price
                  sd.feed_in_price sd.pv_w sd.consumption_w srte deg bc
                  sd.pv_dc_w]
                apply calculate_step_cost_mono
                · subst hdt; norm_num
                · exact hgp
                · exact hfip
                · exact hdeg
                · exact hsr
                · exact hdc
                · positivity
                · have : ((ki : ℤ) + u - (kj : ℤ) : ℤ) ≤ u := by omega
                  have hc : (((ki : ℤ) + u - (kj : ℤ) : ℤ) : ℚ) ≤ (u : ℚ) := by
                    exact_mod_cast this
                  linarith
        · -- u = 0: the zero action
          have hu00 : u = 0 := by omega
          subst hu00
          have ha0 : (100 * ((0 : ℤ) : ℚ)) = 0 := by norm_num
          rw [ha0] at hfeas heq
          rw [action_new_soc_zero dt minWh maxWh (minWh + 25 * (ki : ℤ))] at hfeas
          have hns := Option.some.inj hfeas
          subst hns
          rw [action_total_aligned dt sd srte deg bc hK hK1 Vnext _ _ (ki : ℤ)
            (by positivity) (by omega)] at heq
          have htn : ((ki : ℤ)).toNat = ki := by omega
          rw [htn] at heq
          refine le_trans (hzero_bound kj hj) ?_
          rw [heq]
          rw [calculate_step_cost_soc_irrel dt ((minWh + 25 * (kj : ℤ) : ℤ) : ℚ)
            ((minWh + 25 * (ki : ℤ) : ℤ) : ℚ) 0 sd.grid_price sd.feed_in_price
            sd.pv_w sd.consumption_w srte deg bc sd.pv_dc_w]
          apply add_le_add_left
          apply hVmono
          · exact hij
          · rw [hlen]
            omega
  · -- finiteness
    intro k hk
    rw [hentry k hk]
    have hb := hzero_bound k hk
    have hfin := hVfin k hk
    obtain ⟨q, hq⟩ := WithTop.ne_top_iff_exists.mp hfin
    rw [← hq] at hb
    rw [← WithTop.coe_add] at hb
    exact ne_top_of_le_ne_top WithTop.coe_ne_top hb

theorem getD_nonneg {l : List ℚ} (h : ∀ x ∈ l, 0 ≤ x) {d : ℚ} (hd : 0 ≤ d)
    (t : ℕ) : 0 ≤ l.getD t d := by
  by_cases ht : t < l.length
  · rw [List.getD_eq_getElem _ _ ht]
    exact h _ (List.getElem_mem ht)
  · rw [List.getD_eq_default _ _ (by omega)]
    exact hd

theorem getLastD_nonneg : ∀ (l : List ℚ) (d : ℚ), (∀ x ∈ l, 0 ≤ x) → 0 ≤ d →
    0 ≤ l.getLastD d
  | [], _, _, hd => hd
  | a :: tl, d, h, _ => by
      rw [List.getLastD_cons]
      exact getLastD_nonneg tl a (fun x hx => h x (List.mem_cons_of_mem _ hx))
        (h a (List.mem_cons_self _ _))

theorem terminal_V_good {minWh maxWh K : ℤ} (hK : maxWh - minWh = 25 * K)
    (hK0 : 0 ≤ K) (tp : ℚ) (htp : 0 ≤ tp) :
    V_good (soc_states minWh maxWh)
      (terminal_V (soc_states minWh maxWh) minWh tp) := by
  have hlen := soc_states_length hK hK0
  have hentry : ∀ k, k < (soc_states minWh maxWh).length →
      (terminal_V (soc_states minWh maxWh) minWh tp).getD k ⊤ =
      ((-((25 * (k : ℚ)) / 1000) * tp : ℚ) : Cost) := by
    intro k hk
    have hsk := soc_states_getD hK hK0 k hk
    rw [List.getD_eq_getElem _ _ (by simpa [terminal_V] using hk)]
    simp only [terminal_V, List.getElem_map]
    rw [List.getD_eq_getElem _ _ hk] at hsk
    rw [hsk]
    congr 2
    push_cast
    ring
  refine ⟨by simp [terminal_V], ?_, ?_⟩
  · intro i j hij hj
    have hi : i < (soc_states minWh maxWh).length := lt_of_le_of_lt hij hj
    rw [hentry i hi, hentry j hj]
    rw [WithTop.coe_le_coe]
    have hcast : (i : ℚ) ≤ (j : ℚ) := by exact_mod_cast hij
    nlinarith [mul_nonneg (sub_nonneg.mpr hcast) htp]
  · intro k hk
    rw [hentry k hk]
    exact WithTop.coe_ne_top

theorem unCost_sub_nonneg {states : List ℤ} {V : List Cost}
    (hg : V_good states V) {i j : ℕ} (hij : i ≤ j) (hj : j < states.length) :
    0 ≤ unCost (V.getD i ⊤) - unCost (V.getD j ⊤) := by
  obtain ⟨hlen, hmono, hfin⟩ := hg
  have hle := hmono i j hij hj
  obtain ⟨qi, hqi⟩ := WithTop.ne_top_iff_exists.mp (hfin i (lt_of_le_of_lt hij hj))
  obtain ⟨qj, hqj⟩ := WithTop.ne_top_iff_exists.mp (hfin j hj)
  rw [← hqi, ← hqj] at hle ⊢
  rw [WithTop.coe_le_coe] at hle
  simpa [unCost] using hle

theorem backward_pass_good (dt : ℚ) (hdt : dt = 1/4)
    (srte deg : ℚ) (bc : BatteryConfig) {minWh maxWh K : ℤ}
    (hK : maxWh - minWh = 25 * K) (hK1 : 1 ≤ K) (Mdis Mch : ℚ)
    (hMch : 0 ≤ pyInt (Mch / 100)) (sds : List StepData)
    (hsds : ∀ sd ∈ sds, 0 ≤ sd.grid_price ∧ 0 ≤ sd.feed_in_price)
    (hdeg : 0 ≤ deg) (hsr : 0 < srte)
    (hdc : 0 < (if bc.pv_dc_coupled then bc.pv_dc_efficiency else srte))
    (terminal : List Cost)
    (hterm : V_good (soc_states minWh maxWh) terminal) :
    V_good (soc_states minWh maxWh)
      ((backward_pass dt srte deg bc minWh maxWh (soc_states minWh maxWh)
        (discharge_actions Mdis ++ charge_actions Mch) sds terminal).1) := by
  induction sds with
  | nil => simpa [backward_pass] using hterm
  | cons sd tl ih =>
      have htl : ∀ s ∈ tl, 0 ≤ s.grid_price ∧ 0 ≤ s.feed_in_price :=
        fun s hs => hsds s (List.mem_cons_of_mem _ hs)
      have hhd := hsds sd (List.mem_cons_self _ _)
      unfold backward_pass at ih ⊢
      rw [List.foldr_cons]
      exact backward_step_good dt hdt sd srte deg bc hK hK1 Mdis Mch hMch _
        hhd.1 hhd.2 hdeg hsr hdc (ih htl)

/-- C8: amended shadow-price sign property.  With a 15-minute step, a
SoC window whose width in Wh is a positive multiple of the 25 Wh grid
resolution, non-negative buy and feed-in price forecasts, non-negative
degradation cost, positive efficiencies and a non-negative charge-power
limit, the shadow price reported by `optimize_battery_schedule` is
non-negative: the finite-difference of the cost-to-go over SoC is taken
on a monotone value function.  (The claimed unconditional non-negativity
fails for negative feed-in prices, see the C8 counterexample.) -/
theorem C8_amended_shadow_nonneg (bc : BatteryConfig) (current_soc_kwh : ℚ)
    (price_forecast : List ℚ) (feed_in_forecast : Option (List ℚ))
    (pv_forecast consumption_forecast : List ℚ)
    (degradation_cost_per_kwh min_price_spread : ℚ)
    (pv_dc_forecast : Option (List ℚ)) {K : ℤ}
    (hK : pyInt (bc.max_soc_kwh * 1000) - pyInt (bc.min_soc_kwh * 1000) = 25 * K)
    (hK1 : 1 ≤ K)
    (hMch : 0 ≤ pyInt (bc.max_charge_power_kw * 1000 / 100))
    (hprice : ∀ x ∈ price_forecast, 0 ≤ x)
    (hfi : ∀ x ∈ feed_in_forecast.getD price_forecast, 0 ≤ x)
    (hdeg : 0 ≤ degradation_cost_per_kwh) (hsr : 0 < bc.sqrt_rte)
    (hdc : 0 < (if bc.pv_dc_coupled then bc.pv_dc_efficiency else bc.sqrt_rte)) :
    0 ≤ (optimize_battery_schedule bc current_soc_kwh price_forecast
      feed_in_forecast pv_forecast consumption_forecast 15
      degradation_cost_per_kwh min_price_spread
      pv_dc_forecast).shadow_price_eur_kwh := by
  have hK0 : (0:ℤ) ≤ K := by omega
  have hdt : (((15:ℤ):ℚ))/60 = 1/4 := by norm_num
  have hgood : V_good
      (soc_states (pyInt (bc.min_soc_kwh * 1000)) (pyInt (bc.max_soc_kwh * 1000)))
      ((backward_pass ((((15:ℤ):ℚ))/60) bc.sqrt_rte degradation_cost_per_kwh bc
        (pyInt (bc.min_soc_kwh * 1000)) (pyInt (bc.max_soc_kwh * 1000))
        (soc_states (pyInt (bc.min_soc_kwh * 1000))
          (pyInt (bc.max_soc_kwh * 1000)))
        (discharge_actions (bc.max_discharge_power_kw * 1000) ++
          charge_actions (bc.max_charge_power_kw * 1000))
        ((List.range (min (min price_forecast.length pv_forecast.length)
          consumption_forecast.length)).map
          (step_data price_forecast (feed_in_forecast.getD price_forecast)
            pv_forecast
            (pv_dc_forecast.getD (List.replicate pv_forecast.length 0))
            consumption_forecast))
        (terminal_V (soc_states (pyInt (bc.min_soc_kwh * 1000))
          (pyInt (bc.max_soc_kwh * 1000))) (pyInt (bc.min_soc_kwh * 1000))
          ((feed_in_forecast.getD price_forecast).getLastD 0))).1) := by
    refine backward_pass_good _ hdt _ _ _ hK hK1 _ _ hMch _ ?_ hdeg hsr hdc _ ?_
    · intro sd hsd
      rw [List.mem_map] at hsd
      obtain ⟨t, ht, rfl⟩ := hsd
      simp only [step_data]
      exact ⟨getD_nonneg hprice le_rfl t,
        getD_nonneg hfi (getD_nonneg hprice le_rfl t) t⟩
    · exact terminal_V_good hK hK0 _ (getLastD_nonneg _ _ hfi le_rfl)
  simp only [optimize_battery_schedule]
  split_ifs <;> (try dsimp only) <;>
    first
      | exact le_refl 0
      | (refine div_nonneg (unCost_sub_nonneg hgood ?_ ?_)
          (by norm_num [SOC_RESOLUTION_WH]) <;> omega)
      | (simp [empty_result]; done)

theorem C8_witness :
    0 ≤ (optimize_battery_schedule cfg_tiny_aligned (7/200) [1] none [0] [0] 15
      (3/100) (1/20) none).shadow_price_eur_kwh :=
  @C8_amended_shadow_nonneg cfg_tiny_aligned (7/200) [1] none [0] [0] (3/100)
    (1/20) none 2
    (by norm_num [pyInt, BatteryConfig.max_soc_kwh, BatteryConfig.min_soc_kwh,
      cfg_tiny_aligned])
    (by norm_num)
    (by norm_num [pyInt, cfg_tiny_aligned])
    (by
      intro x hx
      rw [List.mem_singleton] at hx
      subst hx
      norm_num)
    (by
      intro x hx
      rw [Option.getD_none, List.mem_singleton] at hx
      subst hx
      norm_num)
    (by norm_num)
    (by norm_num [cfg_tiny_aligned])
    (by norm_num [cfg_tiny_aligned])

end BatteryCtrl
